import Mathlib

/-!
# Storage-quota admission webhook: embedding and verified properties

Shallow embedding of `v1/pkg/webhook/webhook.go` (`Server.validate`,
`FormatFileSize`) and `v1/main.go` (`synchronousStorage`).

Conventions of the embedding

* Go `int64` and `int` (64 bit) values are Lean `Int`s; every arithmetic
  operation of the source is followed by `wrapInt64`, the two's-complement
  wrap-around of the Go runtime.
* A Go `string` is a byte sequence.  It is embedded as a Lean `String` whose
  characters stand for bytes (code below 256); every literal of the program is
  ASCII.
* A Go `map[string]string` is an association list looked up by first match;
  a nil map is `none`.
* A run-time panic, and the exhaustion of the recursion bound, are explicit
  outcomes.
-/

namespace Webhook

/-! ## Machine integers -/

/-- Smallest `int64`. -/
def minInt64 : Int := -9223372036854775808

/-- Largest `int64`. -/
def maxInt64 : Int := 9223372036854775807

/-- Two's-complement wrap-around of Go's `int64` (and 64-bit `int`) arithmetic. -/
def wrapInt64 (x : Int) : Int :=
  (x + 9223372036854775808) % 18446744073709551616 - 9223372036854775808

/-- The value is representable as an `int64`. -/
def InInt64 (x : Int) : Prop := minInt64 ≤ x ∧ x ≤ maxInt64

instance (x : Int) : Decidable (InInt64 x) := by
  unfold InInt64; exact inferInstance

/-! ## `strconv` -/

/-- The decimal digit character of `d` (for `d < 10`). -/
def digitChar (d : Nat) : Char := Char.ofNat (48 + d)

/-- Decimal digits of a natural number, most significant first; `fuel` bounds
the number of digits. -/
def formatBits : Nat → Nat → List Char
  | 0, _ => []
  | fuel + 1, n =>
    if n < 10 then [digitChar n]
    else formatBits fuel (n / 10) ++ [digitChar (n % 10)]

/-- Go `strconv.FormatInt(i, 10)`: canonical decimal text of `i`. -/
def FormatInt (i : Int) : String :=
  if i < 0 then String.mk ('-' :: formatBits (i.natAbs + 1) i.natAbs)
  else String.mk (formatBits (i.natAbs + 1) i.natAbs)

/-- Go `strconv.Itoa(i)`, which is `FormatInt(int64(i), 10)`. -/
def Itoa (i : Int) : String := FormatInt i

/-- Value of a run of decimal digits, `none` on any other byte (base 10 is
given explicitly in the source, so underscores are rejected as well). -/
def parseDigits : List Char → Nat → Option Nat
  | [], acc => some acc
  | c :: cs, acc =>
    if 48 ≤ c.toNat ∧ c.toNat ≤ 57 then parseDigits cs (acc * 10 + (c.toNat - 48))
    else none

/-- Unsigned part of `ParseInt`: a non-empty run of digits. -/
def parseUint (cs : List Char) : Option Nat :=
  match cs with
  | [] => none
  | _ :: _ => parseDigits cs 0

/-- Go `strconv.ParseInt(s, 10, 64)`; `none` stands for a non-nil error
(`ErrSyntax` or `ErrRange`). -/
def ParseInt (s : String) : Option Int :=
  match s.data with
  | [] => none
  | c :: cs =>
    if c = '+' then
      match parseUint cs with
      | some n => if n < 9223372036854775808 then some (Int.ofNat n) else none
      | none => none
    else if c = '-' then
      match parseUint cs with
      | some n => if n ≤ 9223372036854775808 then some (-(Int.ofNat n)) else none
      | none => none
    else
      match parseUint (c :: cs) with
      | some n => if n < 9223372036854775808 then some (Int.ofNat n) else none
      | none => none

/-- Go `strconv.Atoi(s)` on a 64-bit platform: the same language and range as
`ParseInt(s, 10, 64)`. -/
def Atoi (s : String) : Option Int := ParseInt s

/-! ## `encoding/base64`, `URLEncoding` -/

/-- The URL-safe alphabet of `base64.URLEncoding`. -/
def encodeURL : List Char :=
  "ABCDEFGHIJKLMNOPQRSTUVWXYZabcdefghijklmnopqrstuvwxyz0123456789-_".data

/-- Alphabet character of a six-bit value. -/
def encodeChar (v : Nat) : Char := encodeURL.getD v 'A'

/-- The decode map: position of a byte in the alphabet, `none` for `0xff`. -/
def decodeMap (c : Char) : Option Nat :=
  let i := encodeURL.indexOf c
  if i < 64 then some i else none

/-- Bytes to characters of the padded encoding, three bytes at a time. -/
def encodeBytes : List Char → List Char
  | [] => []
  | [a] =>
    let val := a.toNat * 65536
    [encodeChar (val / 262144 % 64), encodeChar (val / 4096 % 64), '=', '=']
  | [a, b] =>
    let val := a.toNat * 65536 + b.toNat * 256
    [encodeChar (val / 262144 % 64), encodeChar (val / 4096 % 64),
     encodeChar (val / 64 % 64), '=']
  | a :: b :: c :: rest =>
    let val := a.toNat * 65536 + b.toNat * 256 + c.toNat
    encodeChar (val / 262144 % 64) :: encodeChar (val / 4096 % 64) ::
      encodeChar (val / 64 % 64) :: encodeChar (val % 64) :: encodeBytes rest

/-- Go `base64.URLEncoding.EncodeToString`. -/
def EncodeToString (src : String) : String := String.mk (encodeBytes src.data)

/-- Skips the `\n` and `\r` bytes at the head of the input. -/
def skipNewlines : List Char → List Char
  | [] => []
  | c :: cs => if c = '\n' ∨ c = '\r' then skipNewlines cs else c :: cs

/-- The decoded bytes of the six-bit values collected for one quantum: three
bytes from four values, two from three, one from two. -/
def quantumBytes (dbuf : List Nat) : List Char :=
  let val := dbuf.getD 0 0 * 262144 + dbuf.getD 1 0 * 4096 + dbuf.getD 2 0 * 64 + dbuf.getD 3 0
  [Char.ofNat (val / 65536 % 256), Char.ofNat (val / 256 % 256), Char.ofNat (val % 256)].take
    (dbuf.length - 1)

/-- Go `Encoding.Decode` with `decodeQuantum` for the padded, non-strict
`URLEncoding`: `dbuf` holds the six-bit values of the current quantum, `dst`
the bytes written so far.  The result is the written prefix together with
whether an error (`CorruptInputError`) is reported. -/
def decodeLoop : List Char → List Nat → List Char → List Char × Bool
  | [], dbuf, dst => (dst, !dbuf.isEmpty)
  | c :: src, dbuf, dst =>
    match decodeMap c with
    | some out =>
      if dbuf.length = 3 then decodeLoop src [] (dst ++ quantumBytes (dbuf ++ [out]))
      else decodeLoop src (dbuf ++ [out]) dst
    | none =>
      if c = '\n' ∨ c = '\r' then decodeLoop src dbuf dst
      else if c ≠ '=' then (dst, true)
      else if dbuf.length < 2 then (dst, true)
      else if dbuf.length = 2 then
        match skipNewlines src with
        | [] => (dst, true)
        | c2 :: src2 =>
          if c2 ≠ '=' then (dst, true)
          else (dst ++ quantumBytes dbuf, !(skipNewlines src2).isEmpty)
      else (dst ++ quantumBytes dbuf, !(skipNewlines src).isEmpty)

/-- Go `base64.URLEncoding.DecodeString`: the decoded bytes (the prefix written
before an error, if any) and the error flag. -/
def DecodeString (s : String) : String × Bool :=
  let r := decodeLoop s.data [] []
  (String.mk r.1, r.2)

/-! ## Data model -/

/-- The annotation map of an object, `map[string]string`. -/
abbrev Annotations := List (String × String)

/-- The value stored under `key`, if any. -/
def mapLookup : Annotations → String → Option String
  | [], _ => none
  | (k, v) :: rest, key => if k = key then some v else mapLookup rest key

/-- Go `m[key]` on a possibly nil map: the zero value `""` when absent. -/
def mapIndex (m : Option Annotations) (key : String) : String :=
  match m with
  | none => ""
  | some l => (mapLookup l key).getD ""

/-- Go `m[key] = value` on a non-nil map. -/
def mapAssign : Annotations → String → String → Annotations
  | [], key, value => [(key, value)]
  | (k, v) :: rest, key, value =>
    if k = key then (k, value) :: rest else (k, v) :: mapAssign rest key value

/-- The fields of `storagev1beta1.StorageClass` the program reads or writes.
`resourceVersion` is the version token of the object metadata, carried along
unchanged by the program. -/
structure StorageClass where
  name : String
  annotations : Option Annotations
  allowVolumeExpansion : Option Bool
  allowedTopologies : Option (List String)
  resourceVersion : Nat
  deriving DecidableEq, Repr

/-- The fields of `corev1.PersistentVolumeClaim` the program reads:
`Spec.StorageClassName` (a pointer) and `Spec.Resources.Requests["storage"].Value()`. -/
structure PersistentVolumeClaim where
  storageClassName : Option String
  storage : Int
  deriving DecidableEq, Repr

/-- The fields of `corev1.PersistentVolume` the program reads:
`Spec.StorageClassName` and `Spec.Capacity["storage"].Value()`. -/
structure PersistentVolume where
  storageClassName : String
  capacity : Int
  deriving DecidableEq, Repr

/-- The result of `json.Unmarshal` on a raw object: the error text or the
decoded claim. -/
inductive Raw where
  | invalid (err : String)
  | valid (pvc : PersistentVolumeClaim)
  deriving DecidableEq, Repr

/-- The fields of `v1beta1.AdmissionRequest` the program reads (`ar.Request`,
taken to be non-nil). -/
structure AdmissionRequest where
  kind : String
  operation : String
  object : Raw
  oldObject : Raw
  deriving DecidableEq, Repr

/-- The `metav1.Status` of a response. -/
structure Status where
  message : String
  deriving DecidableEq, Repr

/-- The `v1beta1.AdmissionResponse`: `allowed` is `false` when the field is not set. -/
structure AdmissionResponse where
  allowed : Bool
  result : Option Status
  deriving DecidableEq, Repr

/-- How a call ends: with a response, with a run-time panic, or without an
answer inside the recursion bound. -/
inductive Outcome where
  | response (r : AdmissionResponse)
  | panicked
  | diverged
  deriving DecidableEq, Repr

/-- The cluster client the program talks to, over a cluster state `σ`.  A
list call yields `none` on error (the source panics on it, as it does when the
client cannot be built from the kubeconfig; both are the `none` of the first
list call); an update yields `true` when it returns a non-nil error. -/
structure Client (σ : Type) where
  listStorageClasses : σ → Option (List StorageClass) × σ
  updateStorageClass : StorageClass → σ → Bool × σ
  listPersistentVolumes : σ → Option (List PersistentVolume) × σ

/-- The cluster state together with the objects submitted to `Update` so far,
oldest first. -/
structure Run (σ : Type) where
  state : σ
  updates : List StorageClass
  deriving DecidableEq

/-- The three variables `storageVersion`, `quotaStorage`, `usageStorage`. -/
structure QuotaVars where
  storageVersion : Int
  quotaStorage : Int
  usageStorage : Int
  deriving DecidableEq, Repr

/-! ## `Server.validate` -/

/-- The quota and usage decoding of the source: base64-URL decode ignoring the
error, drop the last two bytes, `ParseInt`.  `none` is a panic: the slice
bound is negative or `ParseInt` fails. -/
def decodeSize (v : String) : Option Int :=
  let decoded := (DecodeString v).1
  if decoded.data.length < 2 then none
  else ParseInt (String.mk (decoded.data.take (decoded.data.length - 2)))

/-- The encoding written by the Create and Delete paths and by the
synchronisation task: `FormatInt(n, 10) + "Bi"`, base64-URL encoded. -/
def encodeSize (n : Int) : String := EncodeToString (FormatInt n ++ "Bi")

/-- One branch of the loop over the annotations: the variable keeps its value
when the key is absent, `none` is a panic. -/
def scanKey (m : Annotations) (key : String) (parse : String → Option Int)
    (current : Int) : Option Int :=
  match mapLookup m key with
  | none => some current
  | some v => parse v

/-- The loop `for key, v := range annotations`.  A map holds a key once and
the three branches assign distinct variables, so the visiting order only
decides which panic is raised first. -/
def scanAnnotations (annotations : Option Annotations) (vars : QuotaVars) : Option QuotaVars :=
  match annotations with
  | none => some vars
  | some m =>
    match scanKey m "quota" decodeSize vars.quotaStorage,
          scanKey m "usage" decodeSize vars.usageStorage,
          scanKey m "storageVersion" Atoi vars.storageVersion with
    | some q, some u, some v => some ⟨v, q, u⟩
    | _, _, _ => none

/-- Go `FormatFileSize`: `none` when `storeSizeStr[0 : len(storeSizeStr)-2]`
panics.  The formatted text is a float rendering that only reaches the log. -/
def FormatFileSize (storeSizeStr : String) : Option Unit :=
  if storeSizeStr.data.length < 2 then none else some ()

/-- The call `client.StorageV1beta1().StorageClasses().Update(&storageClass)`;
its error is only logged. -/
def submitUpdate {σ : Type} (client : Client σ) (obj : StorageClass) (run : Run σ) : Run σ :=
  ⟨(client.updateStorageClass obj run.state).2, run.updates ++ [obj]⟩

/-- The loop over `storageList.Items` of `validate`.  `retry` is the recursive
call `whsvr.validate(ar, log)`, whose response is discarded.  The variables
`storageVersion`, `quotaStorage`, `usageStorage` are declared before the loop
and keep their values from one item to the next.  The `FormatFileSize` calls
of the Create and Delete paths take `FormatInt(..) + "Bi"`, three bytes at
least, and cannot panic; those of the Update path take annotation values. -/
def validateLoop {σ : Type} (client : Client σ) (retry : Run σ → Outcome × Run σ)
    (action storageName : String) (pvcStorageSize newPvcStorageSize : Int) :
    List StorageClass → QuotaVars → Run σ → Outcome × Run σ
  | [], _, run => (.response ⟨false, some ⟨""⟩⟩, run)
  | storageClass :: items, vars, run =>
    if storageName = storageClass.name then
      match scanAnnotations storageClass.annotations vars with
      | none => (.panicked, run)
      | some vars =>
        if action = "CREATE" then
          if wrapInt64 (pvcStorageSize + vars.usageStorage) > vars.quotaStorage then
            (.response ⟨false, none⟩, run)
          else if mapIndex storageClass.annotations "storageVersion" = Itoa vars.storageVersion then
            match storageClass.annotations with
            | none => (.panicked, run)
            | some m =>
              let usage := FormatInt (wrapInt64 (pvcStorageSize + vars.usageStorage)) ++ "Bi"
              let m1 := mapAssign m "usage" (EncodeToString usage)
              let m2 := mapAssign m1 "storageVersion" (Itoa (wrapInt64 (vars.storageVersion + 1)))
              (.response ⟨true, none⟩,
                submitUpdate client { storageClass with annotations := some m2 } run)
          else
            match retry run with
            | (.response _, run1) =>
              validateLoop client retry action storageName pvcStorageSize newPvcStorageSize
                items vars run1
            | stopped => stopped
        else if action = "DELETE" then
          if mapIndex storageClass.annotations "storageVersion" = Itoa vars.storageVersion then
            match storageClass.annotations with
            | none => (.panicked, run)
            | some m =>
              let usage := FormatInt (wrapInt64 (vars.usageStorage - pvcStorageSize)) ++ "Bi"
              let m1 := mapAssign m "usage" (EncodeToString usage)
              let m2 := mapAssign m1 "storageVersion" (Itoa (wrapInt64 (vars.storageVersion + 1)))
              (.response ⟨true, none⟩,
                submitUpdate client { storageClass with annotations := some m2 } run)
          else
            match retry run with
            | (.response _, run1) =>
              validateLoop client retry action storageName pvcStorageSize newPvcStorageSize
                items vars run1
            | stopped => stopped
        else if action = "UPDATE" then
          let expansion := storageClass.allowVolumeExpansion.getD false
          if storageClass.allowedTopologies = none ∨ expansion = false then
            (.response ⟨false, none⟩, run)
          else if newPvcStorageSize > pvcStorageSize then
            let addSize := wrapInt64 (newPvcStorageSize - pvcStorageSize)
            if wrapInt64 (addSize + vars.usageStorage) > vars.quotaStorage then
              match FormatFileSize (mapIndex storageClass.annotations "quota"),
                    FormatFileSize (mapIndex storageClass.annotations "usage") with
              | some _, some _ => (.response ⟨false, none⟩, run)
              | _, _ => (.panicked, run)
            else
              match storageClass.annotations with
              | none => (.panicked, run)
              | some m =>
                let m1 := mapAssign m "usage"
                  (FormatInt (wrapInt64 (addSize + vars.usageStorage)) ++ "Bi")
                let run1 := submitUpdate client { storageClass with annotations := some m1 } run
                match FormatFileSize (mapIndex (some m1) "quota"),
                      FormatFileSize (mapIndex (some m1) "usage") with
                | some _, some _ => (.response ⟨true, none⟩, run1)
                | _, _ => (.panicked, run1)
          else
            validateLoop client retry action storageName pvcStorageSize newPvcStorageSize
              items vars run
        else
          validateLoop client retry action storageName pvcStorageSize newPvcStorageSize
            items vars run
    else
      validateLoop client retry action storageName pvcStorageSize newPvcStorageSize
        items vars run

/-- The part of `validate` after the claim has been unmarshalled: dereference
of the storage class name, the list call, and the loop. -/
def validateClaim {σ : Type} (client : Client σ) (retry : Run σ → Outcome × Run σ)
    (action : String) (pvc : PersistentVolumeClaim) (newPvcStorageSize : Int)
    (run : Run σ) : Outcome × Run σ :=
  match pvc.storageClassName with
  | none => (.panicked, run)
  | some storageName =>
    match client.listStorageClasses run.state with
    | (none, state) => (.panicked, ⟨state, run.updates⟩)
    | (some items, state) =>
      validateLoop client retry action storageName pvc.storage newPvcStorageSize
        items ⟨0, 0, 0⟩ ⟨state, run.updates⟩

/-- Go `json.Unmarshal(raw, &pvc)` where `raw` was left nil. -/
def nilRaw : Raw := .invalid "unexpected end of JSON input"

/-- Go `Server.validate`.  The first argument bounds the depth of the
recursion `whsvr.validate(ar, log)`; the log buffer and the `glog` output are
not part of the embedding. -/
def validate {σ : Type} (client : Client σ) : Nat → AdmissionRequest → Run σ → Outcome × Run σ
  | 0, _, run => (.diverged, run)
  | fuel + 1, req, run =>
    if req.kind = "PersistentVolumeClaim" then
      let action := req.operation
      let raw : Raw :=
        if action = "CREATE" then req.object
        else if action = "DELETE" then req.oldObject
        else if action = "UPDATE" then req.oldObject
        else nilRaw
      match (if action = "UPDATE" then req.object else .valid ⟨none, 0⟩) with
      | .invalid err => (.response ⟨false, some ⟨err⟩⟩, run)
      | .valid newPvc =>
        match raw with
        | .invalid err => (.response ⟨false, some ⟨err⟩⟩, run)
        | .valid pvc =>
          validateClaim client (validate client fuel req) action pvc
            (if action = "UPDATE" then newPvc.storage else 0) run
    else
      (.response ⟨false, some ⟨"\nNot support for this Kind of resource  " ++ req.kind⟩⟩, run)

/-! ## `synchronousStorage` -/

/-- How one run of the scheduled task ends. -/
inductive TaskOutcome where
  | completed
  | panicked
  deriving DecidableEq, Repr

/-- The inner loop over `persistentVolumes.Items`: the capacities of the
volumes of the class, added up in `int64`. -/
def sumCapacity (storageClassName : String) : List PersistentVolume → Int → Int
  | [], pvcCount => pvcCount
  | pv :: rest, pvcCount =>
    if storageClassName = pv.storageClassName then
      sumCapacity storageClassName rest (wrapInt64 (pvcCount + pv.capacity))
    else sumCapacity storageClassName rest pvcCount

/-- The loop over `storageList.Items` of the scheduled task. -/
def synchronousStorageLoop {σ : Type} (client : Client σ)
    (persistentVolumes : List PersistentVolume) :
    List StorageClass → Run σ → TaskOutcome × Run σ
  | [], run => (.completed, run)
  | storageClass :: items, run =>
    match scanAnnotations storageClass.annotations ⟨0, 0, 0⟩ with
    | none => (.panicked, run)
    | some vars =>
      let pvcCount := sumCapacity storageClass.name persistentVolumes 0
      if pvcCount ≠ vars.usageStorage then
        if mapIndex storageClass.annotations "storageVersion" = Itoa vars.storageVersion then
          match storageClass.annotations with
          | none => (.panicked, run)
          | some m =>
            let usage := FormatInt pvcCount ++ "Bi"
            let m1 := mapAssign m "usage" (EncodeToString usage)
            synchronousStorageLoop client persistentVolumes items
              (submitUpdate client { storageClass with annotations := some m1 } run)
        else synchronousStorageLoop client persistentVolumes items run
      else synchronousStorageLoop client persistentVolumes items run

/-- One run of the function `task` that `synchronousStorage` schedules: list
the volumes, list the storage classes, correct each class. -/
def synchronousStorage {σ : Type} (client : Client σ) (run : Run σ) : TaskOutcome × Run σ :=
  match client.listPersistentVolumes run.state with
  | (none, state) => (.panicked, ⟨state, run.updates⟩)
  | (some persistentVolumes, state) =>
    match client.listStorageClasses state with
    | (none, state1) => (.panicked, ⟨state1, run.updates⟩)
    | (some items, state1) =>
      synchronousStorageLoop client persistentVolumes items ⟨state1, run.updates⟩

/-! ## The cluster -/

/-- Modelled from the spec: the state behind the Cluster Accessor of §6, the
storage classes and the volumes of the cluster. -/
structure Cluster where
  classes : List StorageClass
  volumes : List PersistentVolume
  deriving DecidableEq, Repr

/-- Modelled from the spec: the conditional update of §6
(`updateStorageClass(name, expectedVersionToken, newAnnotations)`).  The class
of that name is replaced when the submitted object carries its current version
token, and the token advances; otherwise (stale token, unknown name) the
result is `none`, a `ConflictError`. -/
def replaceClass (obj : StorageClass) : List StorageClass → Option (List StorageClass)
  | [] => none
  | c :: rest =>
    if c.name = obj.name then
      if c.resourceVersion = obj.resourceVersion then
        some ({ obj with resourceVersion := obj.resourceVersion + 1 } :: rest)
      else none
    else (replaceClass obj rest).map (fun l => c :: l)

/-- Modelled from the spec: the Cluster Accessor of §6 over a cluster nobody
else writes to.  Reads never fail. -/
def clusterClient : Client Cluster where
  listStorageClasses := fun s => (some s.classes, s)
  updateStorageClass := fun obj s =>
    match replaceClass obj s.classes with
    | none => (true, s)
    | some classes => (false, { s with classes := classes })
  listPersistentVolumes := fun s => (some s.volumes, s)

/-- Modelled from the spec: a cluster with competing admission requests
(§5).  `arrivals` are the requests of other callers, `reads` counts the list
calls of the observed caller. -/
structure Contended where
  cluster : Cluster
  arrivals : List AdmissionRequest
  reads : Nat
  deriving DecidableEq, Repr

/-- Modelled from the spec: the Cluster Accessor under contention.  Right after
each read of the observed caller the next competing request is decided, by
`validate` itself, and its write lands; updates are the conditional updates of
`clusterClient`. -/
def contendedClient (fuel : Nat) : Client Contended where
  listStorageClasses := fun s =>
    match s.arrivals with
    | [] => (some s.cluster.classes, { s with reads := s.reads + 1 })
    | req :: rest =>
      (some s.cluster.classes,
        { cluster := (validate clusterClient fuel req ⟨s.cluster, []⟩).2.state,
          arrivals := rest, reads := s.reads + 1 })
  updateStorageClass := fun obj s =>
    ((clusterClient.updateStorageClass obj s.cluster).1,
      { s with cluster := (clusterClient.updateStorageClass obj s.cluster).2 })
  listPersistentVolumes := fun s => (some s.cluster.volumes, s)

/-! ## Sequences of decisions -/

/-- Decisions taken one after another, each on the state the previous one left. -/
def decideAll {σ : Type} (client : Client σ) (fuel : Nat) :
    List AdmissionRequest → Run σ → List Outcome × Run σ
  | [], run => ([], run)
  | req :: rest, run =>
    ((validate client fuel req run).1 ::
        (decideAll client fuel rest (validate client fuel req run).2).1,
      (decideAll client fuel rest (validate client fuel req run).2).2)

/-- A Create or a Delete of a claim of the given size. -/
inductive ClaimOp where
  | create (size : Int)
  | delete (size : Int)
  deriving DecidableEq, Repr

/-- The admission request of a Create or Delete for a claim of class `storageName`. -/
def ClaimOp.request (storageName : String) : ClaimOp → AdmissionRequest
  | .create size =>
    { kind := "PersistentVolumeClaim", operation := "CREATE",
      object := .valid ⟨some storageName, size⟩, oldObject := nilRaw }
  | .delete size =>
    { kind := "PersistentVolumeClaim", operation := "DELETE",
      object := nilRaw, oldObject := .valid ⟨some storageName, size⟩ }

/-- The usage the program decodes from the annotations of a class. -/
def storedUsage (sc : StorageClass) : Option Int :=
  (scanAnnotations sc.annotations ⟨0, 0, 0⟩).map (fun vars => vars.usageStorage)

/-- The version the program decodes from the annotations of a class. -/
def storedVersion (sc : StorageClass) : Option Int :=
  (scanAnnotations sc.annotations ⟨0, 0, 0⟩).map (fun vars => vars.storageVersion)

/-- The quota the program decodes from the annotations of a class. -/
def storedQuota (sc : StorageClass) : Option Int :=
  (scanAnnotations sc.annotations ⟨0, 0, 0⟩).map (fun vars => vars.quotaStorage)

/-- Whether the outcome is a response with `Allowed = true`. -/
def Outcome.allowed : Outcome → Bool
  | .response r => r.allowed
  | _ => false

/-- Specification side of the ledger: what a decision adds to the usage, the
size of an allowed Create and minus the size of a Delete. -/
def ledgerDelta : ClaimOp → Outcome → Int
  | .create size, o => if o.allowed then size else 0
  | .delete size, _ => -size

/-- Specification side of the ledger: the sum of the contributions of a
sequence of decisions. -/
def ledgerSum : List ClaimOp → List Outcome → Int
  | op :: ops, o :: os => ledgerDelta op o + ledgerSum ops os
  | _, _ => 0

/-- Specification side of the ledger: no step of the sequence leaves the
`int64` range, neither the projected usage nor the advanced version. -/
def LedgerInRange (quota : Int) : Int → Int → List ClaimOp → Prop
  | _, _, [] => True
  | usage, version, .create size :: ops =>
    InInt64 (usage + size) ∧
      (if usage + size > quota then LedgerInRange quota usage version ops
       else InInt64 (version + 1) ∧ LedgerInRange quota (usage + size) (version + 1) ops)
  | usage, version, .delete size :: ops =>
    InInt64 (usage - size) ∧ InInt64 (version + 1) ∧
      LedgerInRange quota (usage - size) (version + 1) ops

/-! ## The quota record and the writes -/

/-- Modelled from the spec: `encode(record, baseAnnotations)` of §4.1.  The
source has no such function; it writes `usage` and `storageVersion` in place
(webhook.go:162-164) and never writes `quota`, whose encoding is taken from
§4.1 and §6 to be that of `usage`. -/
def encodeRecord (record : QuotaVars) (baseAnnotations : Annotations) : Annotations :=
  mapAssign
    (mapAssign (mapAssign baseAnnotations "quota" (encodeSize record.quotaStorage))
      "usage" (encodeSize record.usageStorage))
    "storageVersion" (Itoa record.storageVersion)

/-- The submitted object `obj` is the class `sc` that was read with a new
annotation map: every key other than `usage` and `storageVersion` has the
value it had in the map read, and every key of the map read is still there. -/
def KeepsOtherAnnotations (sc obj : StorageClass) : Prop :=
  ∃ m written : Annotations,
    sc.annotations = some m ∧ obj = { sc with annotations := some written } ∧
    (∀ key, key ≠ "usage" → key ≠ "storageVersion" →
      mapLookup written key = mapLookup m key) ∧
    (∀ key, (mapLookup m key).isSome = true → (mapLookup written key).isSome = true)

/-- The updates `after` extend the updates `before` by objects that each keep
the other annotations of a class satisfying `Listed`. -/
def WritesKeep (Listed : StorageClass → Prop) (before after : List StorageClass) : Prop :=
  ∃ w : List StorageClass, after = before ++ w ∧
    ∀ obj ∈ w, ∃ sc, Listed sc ∧ KeepsOtherAnnotations sc obj

/-- The capacities of the volumes of a class, as a mathematical sum. -/
def capacityOf (storageClassName : String) (volumes : List PersistentVolume) : Int :=
  ((volumes.filter (fun pv => storageClassName = pv.storageClassName)).map
    (fun pv => pv.capacity)).sum

/-- Modelled from the spec: a Cluster Accessor over a cluster that reads the
same on every call and rejects every update (`ClusterAccessError`).  The state
counts the reads of the storage classes. -/
def readOnlyClient (classes : List StorageClass) (volumes : List PersistentVolume) :
    Client Nat where
  listStorageClasses := fun reads => (some classes, reads + 1)
  updateStorageClass := fun _ reads => (true, reads)
  listPersistentVolumes := fun reads => (some volumes, reads)

/-! ## Scenario data -/

/-- The annotation value of 100 GiB, `base64("107374182400Bi")`. -/
def quota100 : String := "MTA3Mzc0MTgyNDAwQmk="

/-- The annotation value of 90 GiB, `base64("96636764160Bi")`. -/
def usage90 : String := "OTY2MzY3NjQxNjBCaQ=="

/-- The annotation value of 60 GiB, `base64("64424509440Bi")`. -/
def usage60 : String := "NjQ0MjQ1MDk0NDBCaQ=="

/-- The annotation value of 55 GiB, `base64("59055800320Bi")`. -/
def usage55 : String := "NTkwNTU4MDAzMjBCaQ=="

/-- The annotation value of 50 GiB, `base64("53687091200Bi")`. -/
def usage50 : String := "NTM2ODcwOTEyMDBCaQ=="

/-- The annotation value of 45 GiB, `base64("48318382080Bi")`. -/
def usage45 : String := "NDgzMTgzODIwODBCaQ=="

/-- The annotations of a class of quota 100 GiB. -/
def annotationsAt (usage version : String) : Annotations :=
  [("quota", quota100), ("usage", usage), ("storageVersion", version)]

/-- A storage class `fast` of quota 100 GiB that permits expansion. -/
def classAt (usage version : String) : StorageClass :=
  { name := "fast", annotations := some (annotationsAt usage version),
    allowVolumeExpansion := some true, allowedTopologies := some [], resourceVersion := 7 }

/-- A storage class `slow` without quota annotations. -/
def otherClass : StorageClass :=
  { name := "slow", annotations := none, allowVolumeExpansion := none,
    allowedTopologies := none, resourceVersion := 2 }

/-- The admission request of an Update of a claim of class `storageName`. -/
def updateRequest (storageName : String) (oldSize newSize : Int) : AdmissionRequest :=
  { kind := "PersistentVolumeClaim", operation := "UPDATE",
    object := .valid ⟨some storageName, newSize⟩,
    oldObject := .valid ⟨some storageName, oldSize⟩ }

/-! ## Lemmas on the primitives -/

theorem wrapInt64_of_inRange (x : Int) (h : InInt64 x) : wrapInt64 x = x := by
  unfold InInt64 minInt64 maxInt64 at h
  unfold wrapInt64
  omega

theorem digitChar_toNat (d : Nat) (h : d < 10) : (digitChar d).toNat = 48 + d := by
  interval_cases d <;> decide

theorem parseDigits_append (l1 l2 : List Char) (acc : Nat) :
    parseDigits (l1 ++ l2) acc = (parseDigits l1 acc).bind (parseDigits l2) := by
  induction l1 generalizing acc with
  | nil => simp [parseDigits]
  | cons c cs ih =>
    simp only [List.cons_append, parseDigits]
    split
    · exact ih _
    · rfl

theorem parseDigits_formatBits (fuel n : Nat) (h : n < fuel) :
    parseDigits (formatBits fuel n) 0 = some n := by
  induction fuel generalizing n with
  | zero => omega
  | succ fuel ih =>
    unfold formatBits
    split
    · rename_i h10
      simp [parseDigits, digitChar_toNat n h10]
      omega
    · rename_i h10
      have hd : n % 10 < 10 := Nat.mod_lt _ (by decide)
      rw [parseDigits_append, ih (n / 10) (by omega)]
      simp [parseDigits, digitChar_toNat _ hd]
      omega

theorem formatBits_head (fuel n : Nat) (h : n < fuel) :
    ∃ c cs, formatBits fuel n = c :: cs ∧ 48 ≤ c.toNat ∧ c.toNat ≤ 57 := by
  induction fuel generalizing n with
  | zero => omega
  | succ fuel ih =>
    unfold formatBits
    split
    · rename_i h10
      exact ⟨_, [], rfl, by rw [digitChar_toNat n h10]; omega, by rw [digitChar_toNat n h10]; omega⟩
    · obtain ⟨c, cs, hc, h1, h2⟩ := ih (n / 10) (by omega)
      exact ⟨c, cs ++ [digitChar (n % 10)], by rw [hc]; rfl, h1, h2⟩

theorem ParseInt_FormatInt (i : Int) (h : InInt64 i) : ParseInt (FormatInt i) = some i := by
  unfold InInt64 minInt64 maxInt64 at h
  unfold FormatInt
  by_cases hneg : i < 0
  · obtain ⟨c, cs, hc, h1, h2⟩ := formatBits_head (i.natAbs + 1) i.natAbs (by omega)
    have hp := parseDigits_formatBits (i.natAbs + 1) i.natAbs (by omega)
    rw [if_pos hneg]
    have hu : parseUint (formatBits (i.natAbs + 1) i.natAbs) = some i.natAbs := by
      rw [hc, parseUint, ← hc, hp]
    have hle : i.natAbs ≤ 9223372036854775808 := by omega
    have hne : ¬ ('-' = '+') := by decide
    simp only [ParseInt, hu, if_true, hle, hne, if_false, Int.ofNat_eq_coe, Option.some.injEq]
    omega
  · obtain ⟨c, cs, hc, h1, h2⟩ := formatBits_head (i.natAbs + 1) i.natAbs (by omega)
    have hp := parseDigits_formatBits (i.natAbs + 1) i.natAbs (by omega)
    rw [if_neg hneg]
    simp only [ParseInt, hc]
    have hplus : c ≠ '+' := by
      intro hh; rw [hh] at h1; revert h1; decide
    have hminus : c ≠ '-' := by
      intro hh; rw [hh] at h1; revert h1; decide
    have hu : parseUint (c :: cs) = some i.natAbs := by
      rw [parseUint, ← hc, hp]
    have hlt : i.natAbs < 9223372036854775808 := by omega
    rw [if_neg hplus, if_neg hminus, hu]
    simp only [hlt, if_true, Int.ofNat_eq_coe, Option.some.injEq]
    omega


theorem decodeMap_encodeChar (v : Nat) (h : v < 64) : decodeMap (encodeChar v) = some v := by
  interval_cases v <;> decide

theorem decodeMap_pad : decodeMap '=' = none := by decide

theorem decodeLoop_sym (v : Nat) (h : v < 64) (src : List Char) (dbuf : List Nat) (dst : List Char) :
    decodeLoop (encodeChar v :: src) dbuf dst =
      if dbuf.length = 3 then decodeLoop src [] (dst ++ quantumBytes (dbuf ++ [v]))
      else decodeLoop src (dbuf ++ [v]) dst := by
  rw [decodeLoop, decodeMap_encodeChar v h]

theorem quantum3 (a b c : Char) (ha : a.toNat < 256) (hb : b.toNat < 256) (hc : c.toNat < 256) :
    quantumBytes [(a.toNat * 65536 + b.toNat * 256 + c.toNat) / 262144 % 64,
      (a.toNat * 65536 + b.toNat * 256 + c.toNat) / 4096 % 64,
      (a.toNat * 65536 + b.toNat * 256 + c.toNat) / 64 % 64,
      (a.toNat * 65536 + b.toNat * 256 + c.toNat) % 64] = [a, b, c] := by
  have e1 : ((a.toNat * 65536 + b.toNat * 256 + c.toNat) / 262144 % 64 * 262144 +
      (a.toNat * 65536 + b.toNat * 256 + c.toNat) / 4096 % 64 * 4096 +
      (a.toNat * 65536 + b.toNat * 256 + c.toNat) / 64 % 64 * 64 +
      (a.toNat * 65536 + b.toNat * 256 + c.toNat) % 64) = a.toNat * 65536 + b.toNat * 256 + c.toNat := by
    omega
  have e2 : (a.toNat * 65536 + b.toNat * 256 + c.toNat) / 65536 % 256 = a.toNat := by omega
  have e3 : (a.toNat * 65536 + b.toNat * 256 + c.toNat) / 256 % 256 = b.toNat := by omega
  have e4 : (a.toNat * 65536 + b.toNat * 256 + c.toNat) % 256 = c.toNat := by omega
  simp only [quantumBytes, List.getD_cons_zero, List.getD_cons_succ, e1, e2, e3, e4,
    Char.ofNat_toNat, List.length_cons, List.length_nil]
  rfl

theorem quantum1 (a : Char) (ha : a.toNat < 256) :
    quantumBytes [a.toNat * 65536 / 262144 % 64, a.toNat * 65536 / 4096 % 64] = [a] := by
  have e2 : (a.toNat * 65536 / 262144 % 64 * 262144 + a.toNat * 65536 / 4096 % 64 * 4096 +
      0 * 64 + 0) / 65536 % 256 = a.toNat := by omega
  simp only [quantumBytes, List.getD_cons_zero, List.getD_cons_succ, List.getD_nil, e2,
    Char.ofNat_toNat, List.length_cons, List.length_nil]
  rfl

theorem quantum2 (a b : Char) (ha : a.toNat < 256) (hb : b.toNat < 256) :
    quantumBytes [(a.toNat * 65536 + b.toNat * 256) / 262144 % 64,
      (a.toNat * 65536 + b.toNat * 256) / 4096 % 64,
      (a.toNat * 65536 + b.toNat * 256) / 64 % 64] = [a, b] := by
  have e2 : ((a.toNat * 65536 + b.toNat * 256) / 262144 % 64 * 262144 +
      (a.toNat * 65536 + b.toNat * 256) / 4096 % 64 * 4096 +
      (a.toNat * 65536 + b.toNat * 256) / 64 % 64 * 64 + 0) / 65536 % 256 = a.toNat := by omega
  have e3 : ((a.toNat * 65536 + b.toNat * 256) / 262144 % 64 * 262144 +
      (a.toNat * 65536 + b.toNat * 256) / 4096 % 64 * 4096 +
      (a.toNat * 65536 + b.toNat * 256) / 64 % 64 * 64 + 0) / 256 % 256 = b.toNat := by omega
  simp only [quantumBytes, List.getD_cons_zero, List.getD_cons_succ, List.getD_nil, e2, e3,
    Char.ofNat_toNat, List.length_cons, List.length_nil]
  rfl

theorem decodeLoop_encodeBytes (bs dst : List Char) (h : ∀ c ∈ bs, c.toNat < 256) :
    decodeLoop (encodeBytes bs) [] dst = (dst ++ bs, false) := by
  induction bs using encodeBytes.induct generalizing dst with
  | case1 => simp [encodeBytes, decodeLoop]
  | case2 a =>
    have ha : a.toNat < 256 := h a (by simp)
    simp only [encodeBytes]
    rw [decodeLoop_sym _ (Nat.mod_lt _ (by decide)), if_neg (by simp),
      decodeLoop_sym _ (Nat.mod_lt _ (by decide)), if_neg (by simp)]
    simp only [List.nil_append, List.singleton_append]
    rw [decodeLoop, decodeMap_pad]
    simp [skipNewlines, quantum1 a ha]
  | case3 a b =>
    have ha : a.toNat < 256 := h a (by simp)
    have hb : b.toNat < 256 := h b (by simp)
    simp only [encodeBytes]
    rw [decodeLoop_sym _ (Nat.mod_lt _ (by decide)), if_neg (by simp),
      decodeLoop_sym _ (Nat.mod_lt _ (by decide)), if_neg (by simp),
      decodeLoop_sym _ (Nat.mod_lt _ (by decide)), if_neg (by simp)]
    simp only [List.nil_append, List.singleton_append, List.cons_append]
    rw [decodeLoop, decodeMap_pad]
    simp [skipNewlines, quantum2 a b ha hb]
  | case4 a b c rest ih =>
    have ha : a.toNat < 256 := h a (by simp)
    have hb : b.toNat < 256 := h b (by simp)
    have hc : c.toNat < 256 := h c (by simp)
    simp only [encodeBytes]
    rw [decodeLoop_sym _ (Nat.mod_lt _ (by decide)), if_neg (by simp),
      decodeLoop_sym _ (Nat.mod_lt _ (by decide)), if_neg (by simp),
      decodeLoop_sym _ (Nat.mod_lt _ (by decide)), if_neg (by simp),
      decodeLoop_sym _ (Nat.mod_lt _ (by decide)), if_pos (by simp)]
    simp only [List.nil_append, List.singleton_append, List.cons_append]
    rw [quantum3 a b c ha hb hc, ih _ (fun x hx => h x (by simp [hx]))]
    simp

theorem DecodeString_EncodeToString (s : String) (h : ∀ c ∈ s.data, c.toNat < 256) :
    DecodeString (EncodeToString s) = (s, false) := by
  simp [DecodeString, EncodeToString, decodeLoop_encodeBytes s.data [] h]


theorem formatBits_bytes (fuel n : Nat) : ∀ c ∈ formatBits fuel n, c.toNat < 256 := by
  induction fuel generalizing n with
  | zero => intro c hc; simp [formatBits] at hc
  | succ fuel ih =>
    intro c hc
    unfold formatBits at hc
    split at hc
    · rename_i h10
      simp only [List.mem_singleton] at hc
      rw [hc, digitChar_toNat n h10]; omega
    · simp only [List.mem_append, List.mem_singleton] at hc
      rcases hc with hc | hc
      · exact ih _ c hc
      · rw [hc, digitChar_toNat _ (Nat.mod_lt _ (by decide))]; omega

theorem FormatInt_bytes (i : Int) : ∀ c ∈ (FormatInt i).data, c.toNat < 256 := by
  intro c hc
  unfold FormatInt at hc
  split at hc
  · simp only [List.mem_cons] at hc
    rcases hc with hc | hc
    · rw [hc]; decide
    · exact formatBits_bytes _ _ c hc
  · exact formatBits_bytes _ _ c hc

theorem decodeSize_encodeSize (n : Int) (h : InInt64 n) : decodeSize (encodeSize n) = some n := by
  have hb : ∀ c ∈ (FormatInt n ++ "Bi").data, c.toNat < 256 := by
    intro c hc
    simp only [String.data_append, List.mem_append] at hc
    rcases hc with hc | hc
    · exact FormatInt_bytes n c hc
    · revert c; decide
  unfold decodeSize encodeSize
  rw [DecodeString_EncodeToString _ hb]
  have hlen : (FormatInt n ++ "Bi").data.length = (FormatInt n).data.length + 2 := by
    simp [String.data_append]
  simp only [hlen]
  rw [if_neg (by omega)]
  have htake : List.take ((FormatInt n).data.length + 2 - 2) (FormatInt n ++ "Bi").data
      = (FormatInt n).data := by
    simp [String.data_append]
  rw [htake]
  exact ParseInt_FormatInt n h

theorem Atoi_Itoa (n : Int) (h : InInt64 n) : Atoi (Itoa n) = some n :=
  ParseInt_FormatInt n h

theorem mapLookup_mapAssign_same (m : Annotations) (key value : String) :
    mapLookup (mapAssign m key value) key = some value := by
  induction m with
  | nil => simp [mapAssign, mapLookup]
  | cons kv rest ih =>
    obtain ⟨k, v⟩ := kv
    by_cases hk : k = key
    · simp [mapAssign, mapLookup, hk]
    · simp [mapAssign, mapLookup, hk, ih]

theorem mapLookup_mapAssign_other (m : Annotations) (key value key2 : String) (h : key ≠ key2) :
    mapLookup (mapAssign m key value) key2 = mapLookup m key2 := by
  induction m with
  | nil => simp [mapAssign, mapLookup, h]
  | cons kv rest ih =>
    obtain ⟨k, v⟩ := kv
    by_cases hk : k = key
    · subst hk
      simp [mapAssign, mapLookup, h]
    · by_cases hk2 : k = key2
      · subst hk2
        simp [mapAssign, mapLookup, hk]
      · simp [mapAssign, mapLookup, hk, hk2, ih]

theorem validateLoop_skip {σ : Type} (client : Client σ) (retry : Run σ → Outcome × Run σ)
    (action storageName : String) (size newSize : Int) (pre items : List StorageClass)
    (vars : QuotaVars) (run : Run σ) (hpre : ∀ c ∈ pre, c.name ≠ storageName) :
    validateLoop client retry action storageName size newSize (pre ++ items) vars run =
      validateLoop client retry action storageName size newSize items vars run := by
  induction pre with
  | nil => rfl
  | cons c rest ih =>
    have hc : ¬ storageName = c.name := fun e => hpre c (by simp) e.symm
    rw [List.cons_append, validateLoop, if_neg hc]
    exact ih (fun x hx => hpre x (by simp [hx]))

/-! ## Lemmas on `validate` -/

theorem validateClaim_eq {σ : Type} (client : Client σ) (retry : Run σ → Outcome × Run σ)
    (action storageName : String) (pvc : PersistentVolumeClaim) (newSize : Int) (run : Run σ)
    (items : List StorageClass)
    (hname : pvc.storageClassName = some storageName)
    (hlist : (client.listStorageClasses run.state).1 = some items) :
    validateClaim client retry action pvc newSize run =
      validateLoop client retry action storageName pvc.storage newSize items ⟨0, 0, 0⟩
        ⟨(client.listStorageClasses run.state).2, run.updates⟩ := by
  unfold validateClaim
  rw [hname]
  rcases hl : client.listStorageClasses run.state with ⟨l, st⟩
  rw [hl] at hlist
  simp only at hlist
  subst hlist
  rfl

theorem validate_create {σ : Type} (client : Client σ) (fuel : Nat) (req : AdmissionRequest)
    (pvc : PersistentVolumeClaim) (run : Run σ)
    (hkind : req.kind = "PersistentVolumeClaim") (hop : req.operation = "CREATE")
    (hobj : req.object = .valid pvc) :
    validate client (fuel + 1) req run =
      validateClaim client (validate client fuel req) "CREATE" pvc 0 run := by
  have h1 : ¬ ("CREATE" = "UPDATE") := by decide
  simp [validate, hkind, hop, hobj, h1]

theorem validate_delete {σ : Type} (client : Client σ) (fuel : Nat) (req : AdmissionRequest)
    (pvc : PersistentVolumeClaim) (run : Run σ)
    (hkind : req.kind = "PersistentVolumeClaim") (hop : req.operation = "DELETE")
    (hobj : req.oldObject = .valid pvc) :
    validate client (fuel + 1) req run =
      validateClaim client (validate client fuel req) "DELETE" pvc 0 run := by
  have h1 : ¬ ("DELETE" = "UPDATE") := by decide
  have h2 : ¬ ("DELETE" = "CREATE") := by decide
  simp [validate, hkind, hop, hobj, h1, h2]

theorem validate_update {σ : Type} (client : Client σ) (fuel : Nat) (req : AdmissionRequest)
    (pvc newPvc : PersistentVolumeClaim) (run : Run σ)
    (hkind : req.kind = "PersistentVolumeClaim") (hop : req.operation = "UPDATE")
    (hnew : req.object = .valid newPvc) (hold : req.oldObject = .valid pvc) :
    validate client (fuel + 1) req run =
      validateClaim client (validate client fuel req) "UPDATE" pvc newPvc.storage run := by
  have h1 : ¬ ("UPDATE" = "DELETE") := by decide
  have h2 : ¬ ("UPDATE" = "CREATE") := by decide
  simp [validate, hkind, hop, hnew, hold, h1, h2]

theorem scanAnnotations_some (m : Annotations) (Q U V : Int)
    (hq : scanKey m "quota" decodeSize 0 = some Q)
    (hu : scanKey m "usage" decodeSize 0 = some U)
    (hv : mapLookup m "storageVersion" = some (Itoa V)) (hV : InInt64 V) :
    scanAnnotations (some m) ⟨0, 0, 0⟩ = some ⟨V, Q, U⟩ := by
  have hv2 : scanKey m "storageVersion" Atoi 0 = some V := by
    rw [scanKey, hv]
    exact Atoi_Itoa V hV
  simp only [scanAnnotations, hq, hu, hv2]

theorem createLoop_deny {σ : Type} (client : Client σ) (retry : Run σ → Outcome × Run σ)
    (size newSize : Int) (sc : StorageClass) (post : List StorageClass)
    (Q U V : Int) (run : Run σ)
    (hscan : scanAnnotations sc.annotations ⟨0, 0, 0⟩ = some ⟨V, Q, U⟩)
    (hover : wrapInt64 (size + U) > Q) :
    validateLoop client retry "CREATE" sc.name size newSize (sc :: post) ⟨0, 0, 0⟩ run =
      (.response ⟨false, none⟩, run) := by
  rw [validateLoop, if_pos rfl, hscan]
  simp only [if_true, hover]

theorem createLoop_write {σ : Type} (client : Client σ) (retry : Run σ → Outcome × Run σ)
    (size newSize : Int) (sc : StorageClass) (post : List StorageClass) (m : Annotations)
    (Q U V : Int) (run : Run σ)
    (hann : sc.annotations = some m)
    (hq : scanKey m "quota" decodeSize 0 = some Q)
    (hu : scanKey m "usage" decodeSize 0 = some U)
    (hv : mapLookup m "storageVersion" = some (Itoa V)) (hV : InInt64 V)
    (hfit : wrapInt64 (size + U) ≤ Q) :
    validateLoop client retry "CREATE" sc.name size newSize (sc :: post) ⟨0, 0, 0⟩ run =
      (.response ⟨true, none⟩,
        submitUpdate client
          { sc with annotations := some (mapAssign (mapAssign m "usage"
              (encodeSize (wrapInt64 (size + U)))) "storageVersion"
              (Itoa (wrapInt64 (V + 1)))) } run) := by
  rw [validateLoop, if_pos rfl, hann, scanAnnotations_some m Q U V hq hu hv hV]
  have hidx : mapIndex (some m) "storageVersion" = Itoa V := by
    simp [mapIndex, hv]
  simp only [if_true, hidx, gt_iff_lt, Int.not_lt.mpr hfit, if_false]
  rfl

theorem deleteLoop_write {σ : Type} (client : Client σ) (retry : Run σ → Outcome × Run σ)
    (size newSize : Int) (sc : StorageClass) (post : List StorageClass) (m : Annotations)
    (Q U V : Int) (run : Run σ)
    (hann : sc.annotations = some m)
    (hq : scanKey m "quota" decodeSize 0 = some Q)
    (hu : scanKey m "usage" decodeSize 0 = some U)
    (hv : mapLookup m "storageVersion" = some (Itoa V)) (hV : InInt64 V) :
    validateLoop client retry "DELETE" sc.name size newSize (sc :: post) ⟨0, 0, 0⟩ run =
      (.response ⟨true, none⟩,
        submitUpdate client
          { sc with annotations := some (mapAssign (mapAssign m "usage"
              (encodeSize (wrapInt64 (U - size)))) "storageVersion"
              (Itoa (wrapInt64 (V + 1)))) } run) := by
  rw [validateLoop, if_pos rfl, hann, scanAnnotations_some m Q U V hq hu hv hV]
  have hidx : mapIndex (some m) "storageVersion" = Itoa V := by
    simp [mapIndex, hv]
  have hne : ¬ ("DELETE" = "CREATE") := by decide
  simp only [if_true, hidx, hne, if_false]
  rfl

theorem decodeLoop_single (c : Char) : (decodeLoop [c] [] []).1 = [] := by
  rw [decodeLoop]
  split
  · simp [decodeLoop]
  · split
    · simp [decodeLoop]
    · split
      · rfl
      · simp

theorem decodeSize_length (q : String) (Q : Int) (h : decodeSize q = some Q) :
    ¬ q.data.length < 2 := by
  intro hlt
  unfold decodeSize DecodeString at h
  match hq : q.data with
  | [] =>
    rw [hq] at h
    simp [decodeLoop] at h
  | [c] =>
    rw [hq] at h
    simp [decodeLoop_single] at h
  | _ :: _ :: _ =>
    rw [hq] at hlt
    simp only [List.length_cons] at hlt
    omega

theorem FormatFileSize_decodable (q : String) (Q : Int) (h : decodeSize q = some Q) :
    FormatFileSize q = some () := by
  unfold FormatFileSize
  rw [if_neg (decodeSize_length q Q h)]

theorem FormatFileSize_written (n : Int) : FormatFileSize (FormatInt n ++ "Bi") = some () := by
  unfold FormatFileSize
  rw [if_neg]
  simp [String.data_append]

theorem replaceClass_at (obj sc : StorageClass) (pre post : List StorageClass)
    (hpre : ∀ c ∈ pre, c.name ≠ sc.name) (hname : obj.name = sc.name)
    (hrv : obj.resourceVersion = sc.resourceVersion) :
    replaceClass obj (pre ++ sc :: post) =
      some (pre ++ { obj with resourceVersion := obj.resourceVersion + 1 } :: post) := by
  induction pre with
  | nil => simp [replaceClass, hname, hrv]
  | cons c rest ih =>
    have hc : ¬ c.name = obj.name := by rw [hname]; exact hpre c (by simp)
    rw [List.cons_append, replaceClass, if_neg hc, ih (fun x hx => hpre x (by simp [hx]))]
    rfl

theorem scanKey_mapAssign_other (m : Annotations) (key value key2 : String)
    (parse : String → Option Int) (current : Int) (h : key ≠ key2) :
    scanKey (mapAssign m key value) key2 parse current = scanKey m key2 parse current := by
  rw [scanKey, scanKey, mapLookup_mapAssign_other m key value key2 h]

/-- One decision of a sequence on the uncontended cluster: it answers, it
leaves the class decodable, and usage and version move as the ledger says. -/
theorem ledger_step (fuel : Nat) (vols : List PersistentVolume) (pre post : List StorageClass)
    (Q : Int) (op : ClaimOp) (ops : List ClaimOp) (sc : StorageClass) (m : Annotations)
    (U V : Int) (ups : List StorageClass)
    (hpre : ∀ c ∈ pre, c.name ≠ sc.name)
    (hann : sc.annotations = some m)
    (hq : scanKey m "quota" decodeSize 0 = some Q)
    (hu : scanKey m "usage" decodeSize 0 = some U)
    (hv : mapLookup m "storageVersion" = some (Itoa V)) (hV : InInt64 V)
    (hrange : LedgerInRange Q U V (op :: ops)) :
    ∃ (o : Outcome) (sc1 : StorageClass) (m1 : Annotations) (w : List StorageClass),
      validate clusterClient (fuel + 1) (op.request sc.name) ⟨⟨pre ++ sc :: post, vols⟩, ups⟩ =
        (o, ⟨⟨pre ++ sc1 :: post, vols⟩, ups ++ w⟩) ∧
      (∃ r, o = .response r) ∧
      sc1.name = sc.name ∧ sc1.annotations = some m1 ∧
      scanKey m1 "quota" decodeSize 0 = some Q ∧
      scanKey m1 "usage" decodeSize 0 = some (U + ledgerDelta op o) ∧
      mapLookup m1 "storageVersion" = some (Itoa (V + w.length)) ∧
      InInt64 (V + w.length) ∧
      LedgerInRange Q (U + ledgerDelta op o) (V + w.length) ops := by
  cases op with
  | create size =>
    simp only [LedgerInRange] at hrange
    obtain ⟨hsum, hrest⟩ := hrange
    have hw : wrapInt64 (size + U) = U + size := by
      rw [Int.add_comm]; exact wrapInt64_of_inRange _ hsum
    rw [validate_create clusterClient fuel _ ⟨some sc.name, size⟩ _ rfl rfl rfl,
      validateClaim_eq clusterClient _ "CREATE" sc.name ⟨some sc.name, size⟩ 0
        ⟨⟨pre ++ sc :: post, vols⟩, ups⟩ (pre ++ sc :: post) rfl rfl,
      validateLoop_skip clusterClient _ "CREATE" sc.name size 0 pre _ _ _ hpre]
    by_cases hover : U + size > Q
    · rw [if_pos hover] at hrest
      refine ⟨.response ⟨false, none⟩, sc, m, [], ?_, ⟨_, rfl⟩, rfl, hann, hq, ?_, ?_, ?_, ?_⟩
      · rw [createLoop_deny clusterClient _ size 0 sc post Q U V _
          (by rw [hann]; exact scanAnnotations_some m Q U V hq hu hv hV) (by rw [hw]; exact hover)]
        simp [clusterClient]
      · simpa [ledgerDelta, Outcome.allowed] using hu
      · simpa using hv
      · simpa using hV
      · simpa [ledgerDelta, Outcome.allowed] using hrest
    · rw [if_neg hover] at hrest
      obtain ⟨hV1, hrest⟩ := hrest
      have hfit : wrapInt64 (size + U) ≤ Q := by rw [hw]; omega
      rw [createLoop_write clusterClient _ size 0 sc post m Q U V _ hann hq hu hv hV hfit, hw,
        wrapInt64_of_inRange _ hV1]
      refine ⟨.response ⟨true, none⟩,
        { sc with
          annotations := some (mapAssign (mapAssign m "usage" (encodeSize (U + size)))
            "storageVersion" (Itoa (V + 1)))
          resourceVersion := sc.resourceVersion + 1 },
        mapAssign (mapAssign m "usage" (encodeSize (U + size))) "storageVersion" (Itoa (V + 1)),
        [{ sc with annotations := some (mapAssign (mapAssign m "usage" (encodeSize (U + size)))
            "storageVersion" (Itoa (V + 1))) }], ?_, ⟨_, rfl⟩, rfl, rfl, ?_, ?_, ?_, ?_, ?_⟩
      · have hrep := replaceClass_at
          { sc with annotations := some (mapAssign (mapAssign m "usage" (encodeSize (U + size)))
            "storageVersion" (Itoa (V + 1))) } sc pre post hpre rfl rfl
        simp only [submitUpdate, clusterClient, hrep]
      · rw [scanKey_mapAssign_other _ _ _ _ _ _ (by decide),
          scanKey_mapAssign_other _ _ _ _ _ _ (by decide)]
        exact hq
      · rw [scanKey_mapAssign_other _ _ _ _ _ _ (by decide), scanKey, mapLookup_mapAssign_same]
        simpa [ledgerDelta, Outcome.allowed] using decodeSize_encodeSize _ hsum
      · rw [mapLookup_mapAssign_same]; simp
      · simpa using hV1
      · simpa [ledgerDelta, Outcome.allowed] using hrest
  | delete size =>
    simp only [LedgerInRange] at hrange
    obtain ⟨hsum, hV1, hrest⟩ := hrange
    rw [validate_delete clusterClient fuel _ ⟨some sc.name, size⟩ _ rfl rfl rfl,
      validateClaim_eq clusterClient _ "DELETE" sc.name ⟨some sc.name, size⟩ 0
        ⟨⟨pre ++ sc :: post, vols⟩, ups⟩ (pre ++ sc :: post) rfl rfl,
      validateLoop_skip clusterClient _ "DELETE" sc.name size 0 pre _ _ _ hpre,
      deleteLoop_write clusterClient _ size 0 sc post m Q U V _ hann hq hu hv hV,
      wrapInt64_of_inRange _ hsum, wrapInt64_of_inRange _ hV1]
    refine ⟨.response ⟨true, none⟩,
      { sc with
        annotations := some (mapAssign (mapAssign m "usage" (encodeSize (U - size)))
          "storageVersion" (Itoa (V + 1)))
        resourceVersion := sc.resourceVersion + 1 },
      mapAssign (mapAssign m "usage" (encodeSize (U - size))) "storageVersion" (Itoa (V + 1)),
      [{ sc with annotations := some (mapAssign (mapAssign m "usage" (encodeSize (U - size)))
          "storageVersion" (Itoa (V + 1))) }], ?_, ⟨_, rfl⟩, rfl, rfl, ?_, ?_, ?_, ?_, ?_⟩
    · have hrep := replaceClass_at
        { sc with annotations := some (mapAssign (mapAssign m "usage" (encodeSize (U - size)))
          "storageVersion" (Itoa (V + 1))) } sc pre post hpre rfl rfl
      simp only [submitUpdate, clusterClient, hrep]
    · rw [scanKey_mapAssign_other _ _ _ _ _ _ (by decide),
        scanKey_mapAssign_other _ _ _ _ _ _ (by decide)]
      exact hq
    · rw [scanKey_mapAssign_other _ _ _ _ _ _ (by decide), scanKey, mapLookup_mapAssign_same]
      simpa [ledgerDelta, Int.sub_eq_add_neg] using decodeSize_encodeSize _ hsum
    · rw [mapLookup_mapAssign_same]; simp
    · simpa using hV1
    · simpa [ledgerDelta, Int.sub_eq_add_neg] using hrest

/-- A sequence of decisions on the uncontended cluster, from any point of a run. -/
theorem ledger_run (fuel : Nat) (vols : List PersistentVolume) (pre post : List StorageClass)
    (Q : Int) (ops : List ClaimOp) :
    ∀ (sc : StorageClass) (m : Annotations) (U V : Int) (ups : List StorageClass),
      (∀ c ∈ pre, c.name ≠ sc.name) → sc.annotations = some m →
      scanKey m "quota" decodeSize 0 = some Q →
      scanKey m "usage" decodeSize 0 = some U →
      mapLookup m "storageVersion" = some (Itoa V) → InInt64 V →
      LedgerInRange Q U V ops →
      ∃ (sc1 : StorageClass) (w : List StorageClass),
        (decideAll clusterClient (fuel + 1) (ops.map (ClaimOp.request sc.name))
            ⟨⟨pre ++ sc :: post, vols⟩, ups⟩).2 = ⟨⟨pre ++ sc1 :: post, vols⟩, ups ++ w⟩ ∧
        (∀ o ∈ (decideAll clusterClient (fuel + 1) (ops.map (ClaimOp.request sc.name))
            ⟨⟨pre ++ sc :: post, vols⟩, ups⟩).1, ∃ r, o = .response r) ∧
        storedUsage sc1 = some (U + ledgerSum ops
          (decideAll clusterClient (fuel + 1) (ops.map (ClaimOp.request sc.name))
            ⟨⟨pre ++ sc :: post, vols⟩, ups⟩).1) ∧
        storedVersion sc1 = some (V + w.length) := by
  induction ops with
  | nil =>
    intro sc m U V ups _ hann hq hu hv hV _
    refine ⟨sc, [], by simp [decideAll], by simp [decideAll], ?_, ?_⟩
    · simp [storedUsage, hann, scanAnnotations_some m Q U V hq hu hv hV, ledgerSum]
    · simp [storedVersion, hann, scanAnnotations_some m Q U V hq hu hv hV]
  | cons op ops ih =>
    intro sc m U V ups hpre hann hq hu hv hV hrange
    obtain ⟨o, sc1, m1, w, hstep, hresp, hname1, hann1, hq1, hu1, hv1, hV1, hrange1⟩ :=
      ledger_step fuel vols pre post Q op ops sc m U V ups hpre hann hq hu hv hV hrange
    obtain ⟨sc2, w2, hrun, hall, husage, hversion⟩ :=
      ih sc1 m1 _ _ (ups ++ w) (by rw [hname1]; exact hpre) hann1 hq1 hu1 hv1 hV1 hrange1
    rw [hname1] at hrun hall husage
    refine ⟨sc2, w ++ w2, ?_, ?_, ?_, ?_⟩
    · simp only [List.map_cons, decideAll, hstep, hrun, List.append_assoc]
    · intro o2 ho2
      simp only [List.map_cons, decideAll, hstep, List.mem_cons] at ho2
      rcases ho2 with ho2 | ho2
      · rw [ho2]; exact hresp
      · exact hall o2 ho2
    · simp only [List.map_cons, decideAll, hstep, husage, ledgerSum, Int.add_assoc]
    · rw [hversion]
      simp only [List.length_append, Nat.cast_add, Int.add_assoc]

/-! ## The claims -/

/-- Claim C1: a CREATE for a claim of size `R` whose storage class is listed
with decoded quota `Q` and usage `U`, where `U + R` is representable in
`int64` and exceeds `Q`, is answered with `Allowed = false`; no update is
submitted and the cluster state is the one the single list call left. -/
theorem create_over_quota_denied {σ : Type} (client : Client σ) (fuel : Nat)
    (req : AdmissionRequest) (pvc : PersistentVolumeClaim) (run : Run σ)
    (pre post : List StorageClass) (sc : StorageClass) (Q U V : Int)
    (hkind : req.kind = "PersistentVolumeClaim") (hop : req.operation = "CREATE")
    (hobj : req.object = .valid pvc) (hname : pvc.storageClassName = some sc.name)
    (hlist : (client.listStorageClasses run.state).1 = some (pre ++ sc :: post))
    (hpre : ∀ c ∈ pre, c.name ≠ sc.name)
    (hscan : scanAnnotations sc.annotations ⟨0, 0, 0⟩ = some ⟨V, Q, U⟩)
    (hrep : InInt64 (U + pvc.storage))
    (hover : U + pvc.storage > Q) :
    validate client (fuel + 1) req run =
      (.response ⟨false, none⟩, ⟨(client.listStorageClasses run.state).2, run.updates⟩) := by
  have hw : wrapInt64 (pvc.storage + U) = U + pvc.storage := by
    rw [Int.add_comm]; exact wrapInt64_of_inRange _ hrep
  rw [validate_create client fuel req pvc run hkind hop hobj,
    validateClaim_eq client _ "CREATE" sc.name pvc 0 run _ hname hlist,
    validateLoop_skip client _ "CREATE" sc.name pvc.storage 0 pre _ _ _ hpre,
    createLoop_deny client _ pvc.storage 0 sc post Q U V _ hscan (by rw [hw]; exact hover)]

/-- Scenario 1 of the specification: quota 100 GiB, usage 90 GiB, a Create of
20 GiB is denied and the cluster is left as it was. -/
theorem create_over_quota_denied_witness :
    validate clusterClient 1 (ClaimOp.request "fast" (.create 21474836480))
        ⟨⟨[otherClass, classAt usage90 "3"], []⟩, []⟩ =
      (.response ⟨false, none⟩, ⟨⟨[otherClass, classAt usage90 "3"], []⟩, []⟩) :=
  create_over_quota_denied clusterClient 0 (ClaimOp.request "fast" (.create 21474836480))
    ⟨some "fast", 21474836480⟩ ⟨⟨[otherClass, classAt usage90 "3"], []⟩, []⟩
    [otherClass] [] (classAt usage90 "3") 107374182400 96636764160 3
    rfl rfl rfl rfl rfl (by decide) (by decide) (by decide) (by decide)

/-- Claim C2: a CREATE of size `R` against a listed storage class with decoded
quota `Q`, usage `U` and canonical version `V`, with `U + R ≤ Q`, is answered
with `Allowed = true`, and the one object submitted to `Update` carries the
usage annotation `encodeSize (U + R)` and the storageVersion annotation
`Itoa (V + 1)`.  Sums are the `int64` sums of the source (`wrapInt64`), equal
to the mathematical ones whenever those are representable. -/
theorem create_within_quota_allowed {σ : Type} (client : Client σ) (fuel : Nat)
    (req : AdmissionRequest) (pvc : PersistentVolumeClaim) (run : Run σ)
    (pre post : List StorageClass) (sc : StorageClass) (m : Annotations) (Q U V : Int)
    (hkind : req.kind = "PersistentVolumeClaim") (hop : req.operation = "CREATE")
    (hobj : req.object = .valid pvc) (hname : pvc.storageClassName = some sc.name)
    (hlist : (client.listStorageClasses run.state).1 = some (pre ++ sc :: post))
    (hpre : ∀ c ∈ pre, c.name ≠ sc.name)
    (hann : sc.annotations = some m)
    (hq : scanKey m "quota" decodeSize 0 = some Q)
    (hu : scanKey m "usage" decodeSize 0 = some U)
    (hv : mapLookup m "storageVersion" = some (Itoa V)) (hV : InInt64 V)
    (hfit : wrapInt64 (U + pvc.storage) ≤ Q) :
    ∃ written : Annotations,
      validate client (fuel + 1) req run =
        (.response ⟨true, none⟩,
          submitUpdate client { sc with annotations := some written }
            ⟨(client.listStorageClasses run.state).2, run.updates⟩) ∧
      mapLookup written "usage" = some (encodeSize (wrapInt64 (U + pvc.storage))) ∧
      mapLookup written "storageVersion" = some (Itoa (wrapInt64 (V + 1))) := by
  refine ⟨mapAssign (mapAssign m "usage" (encodeSize (wrapInt64 (U + pvc.storage))))
    "storageVersion" (Itoa (wrapInt64 (V + 1))), ?_, ?_, ?_⟩
  · rw [validate_create client fuel req pvc run hkind hop hobj,
      validateClaim_eq client _ "CREATE" sc.name pvc 0 run _ hname hlist,
      validateLoop_skip client _ "CREATE" sc.name pvc.storage 0 pre _ _ _ hpre,
      createLoop_write client _ pvc.storage 0 sc post m Q U V _ hann hq hu hv hV
        (by rw [Int.add_comm]; exact hfit), Int.add_comm]
  · rw [mapLookup_mapAssign_other _ _ _ _ (by decide), mapLookup_mapAssign_same]
  · rw [mapLookup_mapAssign_same]

/-- Scenario 2 of the specification: quota 100 GiB, usage 50 GiB, version 3, a
Create of 10 GiB. -/
theorem create_within_quota_allowed_witness :
    ∃ written : Annotations,
      validate clusterClient 1 (ClaimOp.request "fast" (.create 10737418240))
          ⟨⟨[otherClass, classAt usage50 "3"], []⟩, []⟩ =
        (.response ⟨true, none⟩,
          submitUpdate clusterClient { classAt usage50 "3" with annotations := some written }
            ⟨⟨[otherClass, classAt usage50 "3"], []⟩, []⟩) ∧
      mapLookup written "usage" = some (encodeSize (wrapInt64 (53687091200 + 10737418240))) ∧
      mapLookup written "storageVersion" = some (Itoa (wrapInt64 (3 + 1))) :=
  create_within_quota_allowed clusterClient 0 (ClaimOp.request "fast" (.create 10737418240))
    ⟨some "fast", 10737418240⟩ ⟨⟨[otherClass, classAt usage50 "3"], []⟩, []⟩
    [otherClass] [] (classAt usage50 "3") (annotationsAt usage50 "3")
    107374182400 53687091200 3
    rfl rfl rfl rfl rfl (by decide) rfl (by decide) (by decide) (by decide) (by decide)
    (by decide)

/-- Claim C3, refuted as stated: a DELETE for a claim whose storage class is
not in the list is answered with the final response of the function, whose
`Allowed` flag is not set; a DELETE against a class whose quota annotation is
the empty string ends in a panic, without a response. -/
theorem delete_not_always_allowed :
    validate clusterClient 1 (ClaimOp.request "gone" (.delete 5368709120))
        ⟨⟨[classAt usage50 "3"], []⟩, []⟩ =
      (.response ⟨false, some ⟨""⟩⟩, ⟨⟨[classAt usage50 "3"], []⟩, []⟩) ∧
    (validate clusterClient 1 (ClaimOp.request "fast" (.delete 5368709120))
        ⟨⟨[{ classAt usage50 "3" with
              annotations := some [("quota", ""), ("usage", usage50), ("storageVersion", "3")] }],
          []⟩, []⟩).1 = .panicked := by
  decide

/-- Claim C3, amended: a DELETE for a claim whose old object decodes and whose
storage class is listed with decodable quota and usage annotations and a
canonical storageVersion annotation is answered with `Allowed = true`. -/
theorem delete_allowed {σ : Type} (client : Client σ) (fuel : Nat)
    (req : AdmissionRequest) (pvc : PersistentVolumeClaim) (run : Run σ)
    (pre post : List StorageClass) (sc : StorageClass) (m : Annotations) (Q U V : Int)
    (hkind : req.kind = "PersistentVolumeClaim") (hop : req.operation = "DELETE")
    (hobj : req.oldObject = .valid pvc) (hname : pvc.storageClassName = some sc.name)
    (hlist : (client.listStorageClasses run.state).1 = some (pre ++ sc :: post))
    (hpre : ∀ c ∈ pre, c.name ≠ sc.name)
    (hann : sc.annotations = some m)
    (hq : scanKey m "quota" decodeSize 0 = some Q)
    (hu : scanKey m "usage" decodeSize 0 = some U)
    (hv : mapLookup m "storageVersion" = some (Itoa V)) (hV : InInt64 V) :
    (validate client (fuel + 1) req run).1 = .response ⟨true, none⟩ := by
  rw [validate_delete client fuel req pvc run hkind hop hobj,
    validateClaim_eq client _ "DELETE" sc.name pvc 0 run _ hname hlist,
    validateLoop_skip client _ "DELETE" sc.name pvc.storage 0 pre _ _ _ hpre,
    deleteLoop_write client _ pvc.storage 0 sc post m Q U V _ hann hq hu hv hV]

/-- A Delete of 5 GiB against the class of usage 50 GiB, version 3, is allowed. -/
theorem delete_allowed_witness :
    (validate clusterClient 1 (ClaimOp.request "fast" (.delete 5368709120))
        ⟨⟨[otherClass, classAt usage50 "3"], []⟩, []⟩).1 = .response ⟨true, none⟩ :=
  delete_allowed clusterClient 0 (ClaimOp.request "fast" (.delete 5368709120))
    ⟨some "fast", 5368709120⟩ ⟨⟨[otherClass, classAt usage50 "3"], []⟩, []⟩
    [otherClass] [] (classAt usage50 "3") (annotationsAt usage50 "3")
    107374182400 53687091200 3
    rfl rfl rfl rfl rfl (by decide) rfl (by decide) (by decide) (by decide) (by decide)

/-- Claim C4: a DELETE whose old object requests `R` bytes against a listed
storage class with decoded usage `U` and canonical version `V` submits usage
`encodeSize (U - R)` and storageVersion `Itoa (V + 1)` and is allowed, for
every quota `Q` the class decodes to; the written usage is negative whenever
`R > U` (and `U - R` is representable).  Differences and sums are the `int64`
ones of the source. -/
theorem delete_subtracts_without_floor {σ : Type} (client : Client σ) (fuel : Nat)
    (req : AdmissionRequest) (pvc : PersistentVolumeClaim) (run : Run σ)
    (pre post : List StorageClass) (sc : StorageClass) (m : Annotations) (Q U V : Int)
    (hkind : req.kind = "PersistentVolumeClaim") (hop : req.operation = "DELETE")
    (hobj : req.oldObject = .valid pvc) (hname : pvc.storageClassName = some sc.name)
    (hlist : (client.listStorageClasses run.state).1 = some (pre ++ sc :: post))
    (hpre : ∀ c ∈ pre, c.name ≠ sc.name)
    (hann : sc.annotations = some m)
    (hq : scanKey m "quota" decodeSize 0 = some Q)
    (hu : scanKey m "usage" decodeSize 0 = some U)
    (hv : mapLookup m "storageVersion" = some (Itoa V)) (hV : InInt64 V) :
    (∃ written : Annotations,
      validate client (fuel + 1) req run =
        (.response ⟨true, none⟩,
          submitUpdate client { sc with annotations := some written }
            ⟨(client.listStorageClasses run.state).2, run.updates⟩) ∧
      mapLookup written "usage" = some (encodeSize (wrapInt64 (U - pvc.storage))) ∧
      mapLookup written "storageVersion" = some (Itoa (wrapInt64 (V + 1)))) ∧
    (InInt64 (U - pvc.storage) → pvc.storage > U → wrapInt64 (U - pvc.storage) < 0) := by
  refine ⟨⟨mapAssign (mapAssign m "usage" (encodeSize (wrapInt64 (U - pvc.storage))))
    "storageVersion" (Itoa (wrapInt64 (V + 1))), ?_, ?_, ?_⟩, ?_⟩
  · rw [validate_delete client fuel req pvc run hkind hop hobj,
      validateClaim_eq client _ "DELETE" sc.name pvc 0 run _ hname hlist,
      validateLoop_skip client _ "DELETE" sc.name pvc.storage 0 pre _ _ _ hpre,
      deleteLoop_write client _ pvc.storage 0 sc post m Q U V _ hann hq hu hv hV]
  · rw [mapLookup_mapAssign_other _ _ _ _ (by decide), mapLookup_mapAssign_same]
  · rw [mapLookup_mapAssign_same]
  · intro hr hgt
    rw [wrapInt64_of_inRange _ hr]
    omega

/-- A Delete of 60 GiB against the class of usage 50 GiB, version 3: the
written usage is minus 10 GiB. -/
theorem delete_subtracts_without_floor_witness :
    (∃ written : Annotations,
      validate clusterClient 1 (ClaimOp.request "fast" (.delete 64424509440))
          ⟨⟨[otherClass, classAt usage50 "3"], []⟩, []⟩ =
        (.response ⟨true, none⟩,
          submitUpdate clusterClient { classAt usage50 "3" with annotations := some written }
            ⟨⟨[otherClass, classAt usage50 "3"], []⟩, []⟩) ∧
      mapLookup written "usage" = some (encodeSize (wrapInt64 (53687091200 - 64424509440))) ∧
      mapLookup written "storageVersion" = some (Itoa (wrapInt64 (3 + 1)))) ∧
    (InInt64 (53687091200 - 64424509440) → (64424509440 : Int) > 53687091200 →
      wrapInt64 (53687091200 - 64424509440) < 0) :=
  delete_subtracts_without_floor clusterClient 0
    (ClaimOp.request "fast" (.delete 64424509440))
    ⟨some "fast", 64424509440⟩ ⟨⟨[otherClass, classAt usage50 "3"], []⟩, []⟩
    [otherClass] [] (classAt usage50 "3") (annotationsAt usage50 "3")
    107374182400 53687091200 3
    rfl rfl rfl rfl rfl (by decide) rfl (by decide) (by decide) (by decide) (by decide)

/-- Claim C5: an UPDATE against a listed storage class whose
`AllowVolumeExpansion` flag is nil or false is answered with `Allowed = false`
whatever the old and new sizes and whatever the annotations decode to; no
update is submitted and the cluster state is the one the list call left. -/
theorem update_expansion_gate {σ : Type} (client : Client σ) (fuel : Nat)
    (req : AdmissionRequest) (pvc newPvc : PersistentVolumeClaim) (run : Run σ)
    (pre post : List StorageClass) (sc : StorageClass) (vars : QuotaVars)
    (hkind : req.kind = "PersistentVolumeClaim") (hop : req.operation = "UPDATE")
    (hnew : req.object = .valid newPvc) (hold : req.oldObject = .valid pvc)
    (hname : pvc.storageClassName = some sc.name)
    (hlist : (client.listStorageClasses run.state).1 = some (pre ++ sc :: post))
    (hpre : ∀ c ∈ pre, c.name ≠ sc.name)
    (hscan : scanAnnotations sc.annotations ⟨0, 0, 0⟩ = some vars)
    (hflag : sc.allowVolumeExpansion = none ∨ sc.allowVolumeExpansion = some false) :
    validate client (fuel + 1) req run =
      (.response ⟨false, none⟩, ⟨(client.listStorageClasses run.state).2, run.updates⟩) := by
  rw [validate_update client fuel req pvc newPvc run hkind hop hnew hold,
    validateClaim_eq client _ "UPDATE" sc.name pvc newPvc.storage run _ hname hlist,
    validateLoop_skip client _ "UPDATE" sc.name pvc.storage newPvc.storage pre _ _ _ hpre,
    validateLoop, if_pos rfl, hscan]
  have h1 : ¬ ("UPDATE" = "DELETE") := by decide
  have h2 : ¬ ("UPDATE" = "CREATE") := by decide
  have hexp : sc.allowVolumeExpansion.getD false = false := by
    rcases hflag with h | h <;> rw [h] <;> rfl
  simp only [h1, h2, if_false, if_true, hexp, or_true]

/-- Scenario 5 of the specification: an Update from 10 GiB to 20 GiB on a class
whose expansion flag is false is denied and the cluster is left as it was. -/
theorem update_expansion_gate_witness :
    validate clusterClient 1 (updateRequest "fast" 10737418240 21474836480)
        ⟨⟨[{ classAt usage50 "3" with allowVolumeExpansion := some false }], []⟩, []⟩ =
      (.response ⟨false, none⟩,
        ⟨⟨[{ classAt usage50 "3" with allowVolumeExpansion := some false }], []⟩, []⟩) :=
  update_expansion_gate clusterClient 0 (updateRequest "fast" 10737418240 21474836480)
    ⟨some "fast", 10737418240⟩ ⟨some "fast", 21474836480⟩
    ⟨⟨[{ classAt usage50 "3" with allowVolumeExpansion := some false }], []⟩, []⟩
    [] [] { classAt usage50 "3" with allowVolumeExpansion := some false }
    ⟨3, 107374182400, 53687091200⟩
    rfl rfl rfl rfl rfl rfl (by decide) (by decide) (Or.inr rfl)

/-- Claim C6, refuted as stated: on a class whose expansion flag is true but
whose `AllowedTopologies` is nil, an Update from 10 GiB to 20 GiB is denied
although the added 10 GiB plus the usage of 50 GiB fit the quota of 100 GiB. -/
theorem update_expansion_not_by_quota_alone :
    (validate clusterClient 1 (updateRequest "fast" 10737418240 21474836480)
        ⟨⟨[{ classAt usage50 "3" with allowedTopologies := none }], []⟩, []⟩).1 =
      .response ⟨false, none⟩ ∧
    ({ classAt usage50 "3" with allowedTopologies := none } : StorageClass).allowVolumeExpansion
      = some true ∧
    storedUsage { classAt usage50 "3" with allowedTopologies := none } = some 53687091200 ∧
    storedQuota { classAt usage50 "3" with allowedTopologies := none } = some 107374182400 ∧
    (21474836480 - 10737418240 : Int) + 53687091200 ≤ 107374182400 := by
  decide

/-- Claim C6, amended: an UPDATE against a listed storage class whose expansion
flag is true and whose `AllowedTopologies` is not nil, with new size `N` larger
than old size `O` and quota and usage annotations that decode to `Q` and `U`,
is answered with `Allowed = true` exactly when `(N - O) + U ≤ Q` in `int64`
arithmetic; nothing else of the class enters the answer. -/
theorem update_expansion_decided_by_quota {σ : Type} (client : Client σ) (fuel : Nat)
    (req : AdmissionRequest) (pvc newPvc : PersistentVolumeClaim) (run : Run σ)
    (pre post : List StorageClass) (sc : StorageClass) (m : Annotations)
    (topologies : List String) (q u : String) (Q U V : Int)
    (hkind : req.kind = "PersistentVolumeClaim") (hop : req.operation = "UPDATE")
    (hnew : req.object = .valid newPvc) (hold : req.oldObject = .valid pvc)
    (hname : pvc.storageClassName = some sc.name)
    (hlist : (client.listStorageClasses run.state).1 = some (pre ++ sc :: post))
    (hpre : ∀ c ∈ pre, c.name ≠ sc.name)
    (hflag : sc.allowVolumeExpansion = some true)
    (htopo : sc.allowedTopologies = some topologies)
    (hann : sc.annotations = some m)
    (hq : mapLookup m "quota" = some q) (hQ : decodeSize q = some Q)
    (hu : mapLookup m "usage" = some u) (hU : decodeSize u = some U)
    (hv : scanKey m "storageVersion" Atoi 0 = some V)
    (hgrow : newPvc.storage > pvc.storage) :
    (validate client (fuel + 1) req run).1 =
      .response ⟨decide (wrapInt64 (wrapInt64 (newPvc.storage - pvc.storage) + U) ≤ Q), none⟩ := by
  rw [validate_update client fuel req pvc newPvc run hkind hop hnew hold,
    validateClaim_eq client _ "UPDATE" sc.name pvc newPvc.storage run _ hname hlist,
    validateLoop_skip client _ "UPDATE" sc.name pvc.storage newPvc.storage pre _ _ _ hpre,
    validateLoop, if_pos rfl, hann]
  have hscan : scanAnnotations (some m) ⟨0, 0, 0⟩ = some ⟨V, Q, U⟩ := by
    simp only [scanAnnotations, scanKey, hq, hu, hQ, hU]
    rw [scanKey] at hv
    rw [hv]
  have h1 : ¬ ("UPDATE" = "DELETE") := by decide
  have h2 : ¬ ("UPDATE" = "CREATE") := by decide
  have hiq : mapIndex (some m) "quota" = q := by simp [mapIndex, hq]
  have hiu : mapIndex (some m) "usage" = u := by simp [mapIndex, hu]
  rw [hscan]
  simp only [h1, h2, if_false, if_true, hflag, htopo, Option.getD_some, hgrow, hiq, hiu,
    FormatFileSize_decodable q Q hQ, FormatFileSize_decodable u U hU]
  by_cases hfit : wrapInt64 (wrapInt64 (newPvc.storage - pvc.storage) + U) ≤ Q
  · have hiq2 : mapIndex (some (mapAssign m "usage"
        (FormatInt (wrapInt64 (wrapInt64 (newPvc.storage - pvc.storage) + U)) ++ "Bi"))) "quota"
        = q := by
      simp [mapIndex, mapLookup_mapAssign_other _ _ _ _ (show "usage" ≠ "quota" by decide), hq]
    have hiu2 : mapIndex (some (mapAssign m "usage"
        (FormatInt (wrapInt64 (wrapInt64 (newPvc.storage - pvc.storage) + U)) ++ "Bi"))) "usage"
        = FormatInt (wrapInt64 (wrapInt64 (newPvc.storage - pvc.storage) + U)) ++ "Bi" := by
      simp [mapIndex, mapLookup_mapAssign_same]
    simp [hfit, Int.not_lt.mpr hfit, hiq2, hiu2, FormatFileSize_decodable q Q hQ,
      FormatFileSize_written]
  · simp [hfit, Int.not_le.mp hfit]

/-- An Update from 10 GiB to 20 GiB on the expandable class of usage 50 GiB and
quota 100 GiB. -/
theorem update_expansion_decided_by_quota_witness :
    (validate clusterClient 1 (updateRequest "fast" 10737418240 21474836480)
        ⟨⟨[otherClass, classAt usage50 "3"], []⟩, []⟩).1 =
      .response ⟨decide (wrapInt64 (wrapInt64 (21474836480 - 10737418240) + 53687091200)
        ≤ 107374182400), none⟩ :=
  update_expansion_decided_by_quota clusterClient 0
    (updateRequest "fast" 10737418240 21474836480)
    ⟨some "fast", 10737418240⟩ ⟨some "fast", 21474836480⟩
    ⟨⟨[otherClass, classAt usage50 "3"], []⟩, []⟩
    [otherClass] [] (classAt usage50 "3") (annotationsAt usage50 "3") []
    quota100 usage50 107374182400 53687091200 3
    rfl rfl rfl rfl rfl rfl (by decide) rfl rfl rfl rfl (by decide) rfl (by decide)
    (by decide) (by decide)

/-- Claim C7, the code at the failing input: an UPDATE that keeps the size, or
shrinks it, on a class that permits expansion submits no update, yet the
response is the final one of the function, with an empty status and the
`Allowed` flag not set. -/
theorem update_without_growth_not_allowed :
    validate clusterClient 1 (updateRequest "fast" 10737418240 10737418240)
        ⟨⟨[classAt usage50 "3"], []⟩, []⟩ =
      (.response ⟨false, some ⟨""⟩⟩, ⟨⟨[classAt usage50 "3"], []⟩, []⟩) ∧
    validate clusterClient 1 (updateRequest "fast" 10737418240 5368709120)
        ⟨⟨[classAt usage50 "3"], []⟩, []⟩ =
      (.response ⟨false, some ⟨""⟩⟩, ⟨⟨[classAt usage50 "3"], []⟩, []⟩) := by
  decide

/-- Claim C8, the code at the failing inputs: the class is read at version 3;
the allowed expansion from 10 GiB to 20 GiB submits the storageVersion
annotation `"3"` again (and the usage without the base64 wrapping), and the
synchronisation task that corrects 60 GiB to the 55 GiB of the volumes submits
`"3"` again as well. -/
theorem version_not_advanced_by_update_and_sync :
    storedVersion (classAt usage50 "3") = some 3 ∧
    validate clusterClient 1 (updateRequest "fast" 10737418240 21474836480)
        ⟨⟨[classAt usage50 "3"], []⟩, []⟩ =
      (.response ⟨true, none⟩,
        ⟨⟨[{ classAt usage50 "3" with
              annotations := some (annotationsAt "64424509440Bi" "3")
              resourceVersion := 8 }], []⟩,
         [{ classAt usage50 "3" with annotations := some (annotationsAt "64424509440Bi" "3") }]⟩) ∧
    storedVersion (classAt usage60 "3") = some 3 ∧
    synchronousStorage clusterClient
        ⟨⟨[classAt usage60 "3"], [⟨"fast", 32212254720⟩, ⟨"fast", 26843545600⟩]⟩, []⟩ =
      (.completed,
        ⟨⟨[{ classAt usage55 "3" with resourceVersion := 8 }],
          [⟨"fast", 32212254720⟩, ⟨"fast", 26843545600⟩]⟩,
         [classAt usage55 "3"]⟩) := by
  decide

/-- Claim C9: Create and Delete decisions taken one after another on one
listed storage class of the uncontended cluster, starting at usage `U0` and
version `V0` and staying inside `int64`, all answer; the class then decodes to
usage `U0` plus the sizes of the allowed Creates minus the sizes of the
Deletes, and to version `V0` plus the number of updates submitted. -/
theorem ledger_correct (fuel : Nat) (vols : List PersistentVolume)
    (pre post : List StorageClass) (sc : StorageClass) (m : Annotations) (Q U0 V0 : Int)
    (ops : List ClaimOp)
    (hpre : ∀ c ∈ pre, c.name ≠ sc.name)
    (hann : sc.annotations = some m)
    (hq : scanKey m "quota" decodeSize 0 = some Q)
    (hu : scanKey m "usage" decodeSize 0 = some U0)
    (hv : mapLookup m "storageVersion" = some (Itoa V0)) (hV : InInt64 V0)
    (hrange : LedgerInRange Q U0 V0 ops) :
    ∃ (final : StorageClass) (written : List StorageClass),
      (decideAll clusterClient (fuel + 1) (ops.map (ClaimOp.request sc.name))
          ⟨⟨pre ++ sc :: post, vols⟩, []⟩).2 = ⟨⟨pre ++ final :: post, vols⟩, written⟩ ∧
      (∀ o ∈ (decideAll clusterClient (fuel + 1) (ops.map (ClaimOp.request sc.name))
          ⟨⟨pre ++ sc :: post, vols⟩, []⟩).1, ∃ r, o = .response r) ∧
      storedUsage final = some (U0 + ledgerSum ops
        (decideAll clusterClient (fuel + 1) (ops.map (ClaimOp.request sc.name))
          ⟨⟨pre ++ sc :: post, vols⟩, []⟩).1) ∧
      storedVersion final = some (V0 + written.length) := by
  obtain ⟨sc1, w, hrun, hall, husage, hversion⟩ :=
    ledger_run fuel vols pre post Q ops sc m U0 V0 [] hpre hann hq hu hv hV hrange
  exact ⟨sc1, w, by simpa using hrun, hall, husage, hversion⟩

/-- A Create of 10 GiB, a Delete of 5 GiB and a Create of 60 GiB (denied) on the
class of quota 100 GiB, usage 50 GiB, version 3. -/
theorem ledger_correct_witness :
    ∃ (final : StorageClass) (written : List StorageClass),
      (decideAll clusterClient 1
          ([ClaimOp.create 10737418240, ClaimOp.delete 5368709120,
            ClaimOp.create 64424509440].map (ClaimOp.request (classAt usage50 "3").name))
          ⟨⟨[otherClass] ++ classAt usage50 "3" :: [], []⟩, []⟩).2 =
        ⟨⟨[otherClass] ++ final :: [], []⟩, written⟩ ∧
      (∀ o ∈ (decideAll clusterClient 1
          ([ClaimOp.create 10737418240, ClaimOp.delete 5368709120,
            ClaimOp.create 64424509440].map (ClaimOp.request (classAt usage50 "3").name))
          ⟨⟨[otherClass] ++ classAt usage50 "3" :: [], []⟩, []⟩).1, ∃ r, o = .response r) ∧
      storedUsage final = some (53687091200 + ledgerSum
        [ClaimOp.create 10737418240, ClaimOp.delete 5368709120, ClaimOp.create 64424509440]
        (decideAll clusterClient 1
          ([ClaimOp.create 10737418240, ClaimOp.delete 5368709120,
            ClaimOp.create 64424509440].map (ClaimOp.request (classAt usage50 "3").name))
          ⟨⟨[otherClass] ++ classAt usage50 "3" :: [], []⟩, []⟩).1) ∧
      storedVersion final = some (3 + written.length) :=
  ledger_correct 0 [] [otherClass] [] (classAt usage50 "3") (annotationsAt usage50 "3")
    107374182400 53687091200 3
    [ClaimOp.create 10737418240, ClaimOp.delete 5368709120, ClaimOp.create 64424509440]
    (by decide) rfl (by decide) (by decide) (by decide) (by decide)
    (by simp [LedgerInRange, InInt64, minInt64, maxInt64])

/-- Claim C10, the code at the failing input: quota 100 GiB, the Create of
10 GiB reads usage 50 GiB at version 3, then the competing Delete of 5 GiB
lands (usage 45 GiB, version 4).  The update of the Create, computed from the
stale read (60 GiB, version 4), is rejected; `validate` answers
`Allowed = true` after its single read, and the class stays at 45 GiB,
version 4. -/
theorem stale_create_not_retried :
    validate (contendedClient 1) 1 (ClaimOp.request "fast" (.create 10737418240))
        ⟨⟨⟨[classAt usage50 "3"], []⟩, [ClaimOp.request "fast" (.delete 5368709120)], 0⟩, []⟩ =
      (.response ⟨true, none⟩,
        ⟨⟨⟨[{ classAt usage45 "4" with resourceVersion := 8 }], []⟩, [], 1⟩,
         [classAt usage60 "4"]⟩) ∧
    ((contendedClient 1).updateStorageClass (classAt usage60 "4")
        ⟨⟨[{ classAt usage45 "4" with resourceVersion := 8 }], []⟩, [], 1⟩).1 = true ∧
    storedUsage (classAt usage45 "4") = some 48318382080 ∧
    storedVersion (classAt usage45 "4") = some 4 := by
  decide

/-! ## Lemmas on the codec, the writes and the synchronisation task -/

theorem scanKey_mapAssign_same (m : Annotations) (key value : String)
    (parse : String → Option Int) (current : Int) :
    scanKey (mapAssign m key value) key parse current = parse value := by
  rw [scanKey, mapLookup_mapAssign_same]

theorem scanAnnotations_eq_none_iff (m : Annotations) (vars : QuotaVars) :
    scanAnnotations (some m) vars = none ↔
      scanKey m "quota" decodeSize vars.quotaStorage = none ∨
      scanKey m "usage" decodeSize vars.usageStorage = none ∨
      scanKey m "storageVersion" Atoi vars.storageVersion = none := by
  cases h1 : scanKey m "quota" decodeSize vars.quotaStorage <;>
    cases h2 : scanKey m "usage" decodeSize vars.usageStorage <;>
    cases h3 : scanKey m "storageVersion" Atoi vars.storageVersion <;>
    simp [scanAnnotations, h1, h2, h3]

theorem scanKey_eq_none_iff (m : Annotations) (key : String) (parse : String → Option Int)
    (current : Int) :
    scanKey m key parse current = none ↔ ∃ v, mapLookup m key = some v ∧ parse v = none := by
  unfold scanKey
  cases h : mapLookup m key <;> simp

theorem scanAnnotations_some_inv (m : Annotations) (vars0 vars : QuotaVars)
    (h : scanAnnotations (some m) vars0 = some vars) :
    scanKey m "quota" decodeSize vars0.quotaStorage = some vars.quotaStorage ∧
    scanKey m "usage" decodeSize vars0.usageStorage = some vars.usageStorage ∧
    scanKey m "storageVersion" Atoi vars0.storageVersion = some vars.storageVersion := by
  cases h1 : scanKey m "quota" decodeSize vars0.quotaStorage <;>
    cases h2 : scanKey m "usage" decodeSize vars0.usageStorage <;>
    cases h3 : scanKey m "storageVersion" Atoi vars0.storageVersion <;>
    simp [scanAnnotations, h1, h2, h3] at h
  subst h
  exact ⟨rfl, rfl, rfl⟩

theorem Itoa_ne_empty (n : Int) : Itoa n ≠ "" := by
  unfold Itoa FormatInt
  split
  · intro h
    have := congrArg String.data h
    simp at this
  · obtain ⟨c, cs, hc, _, _⟩ := formatBits_head (n.natAbs + 1) n.natAbs (by omega)
    rw [hc]
    intro h
    have := congrArg String.data h
    simp at this

theorem ParseInt_inRange (s : String) (n : Int) (h : ParseInt s = some n) : InInt64 n := by
  unfold ParseInt at h
  unfold InInt64 minInt64 maxInt64
  split at h
  · simp at h
  · split at h
    · split at h
      · split at h
        · simp only [Option.some.injEq, Int.ofNat_eq_coe] at h
          omega
        · simp at h
      · simp at h
    · split at h
      · split at h
        · split at h
          · simp only [Option.some.injEq, Int.ofNat_eq_coe] at h
            omega
          · simp at h
        · simp at h
      · split at h
        · split at h
          · simp only [Option.some.injEq, Int.ofNat_eq_coe] at h
            omega
          · simp at h
        · simp at h

/-- An absent or non-canonical storageVersion annotation fails the guard. -/
theorem guard_fails_of_noncanonical (m : Annotations) (V current : Int)
    (hvscan : scanKey m "storageVersion" Atoi current = some V)
    (hbad : mapLookup m "storageVersion" = none ∨
      ∃ s, mapLookup m "storageVersion" = some s ∧ ∀ n, InInt64 n → s ≠ Itoa n) :
    mapIndex (some m) "storageVersion" ≠ Itoa V := by
  rcases hbad with h | ⟨s, hs, hne⟩
  · simp only [mapIndex, h, Option.getD_none]
    exact fun e => Itoa_ne_empty V e.symm
  · simp only [mapIndex, hs, Option.getD_some]
    rw [scanKey, hs] at hvscan
    exact hne V (ParseInt_inRange s V hvscan)

theorem retryLoop_create {σ : Type} (client : Client σ) (retry : Run σ → Outcome × Run σ)
    (size newSize : Int) (sc : StorageClass) (post : List StorageClass) (m : Annotations)
    (Q U V : Int) (run : Run σ)
    (hann : sc.annotations = some m)
    (hscan : scanAnnotations (some m) ⟨0, 0, 0⟩ = some ⟨V, Q, U⟩)
    (hfit : wrapInt64 (size + U) ≤ Q)
    (hguard : mapIndex (some m) "storageVersion" ≠ Itoa V) :
    validateLoop client retry "CREATE" sc.name size newSize (sc :: post) ⟨0, 0, 0⟩ run =
      match retry run with
      | (.response _, run1) =>
        validateLoop client retry "CREATE" sc.name size newSize post ⟨V, Q, U⟩ run1
      | stopped => stopped := by
  rw [validateLoop, if_pos rfl, hann, hscan]
  simp only [if_true, gt_iff_lt, Int.not_lt.mpr hfit, if_false, hguard]

theorem retryLoop_delete {σ : Type} (client : Client σ) (retry : Run σ → Outcome × Run σ)
    (size newSize : Int) (sc : StorageClass) (post : List StorageClass) (m : Annotations)
    (Q U V : Int) (run : Run σ)
    (hann : sc.annotations = some m)
    (hscan : scanAnnotations (some m) ⟨0, 0, 0⟩ = some ⟨V, Q, U⟩)
    (hguard : mapIndex (some m) "storageVersion" ≠ Itoa V) :
    validateLoop client retry "DELETE" sc.name size newSize (sc :: post) ⟨0, 0, 0⟩ run =
      match retry run with
      | (.response _, run1) =>
        validateLoop client retry "DELETE" sc.name size newSize post ⟨V, Q, U⟩ run1
      | stopped => stopped := by
  rw [validateLoop, if_pos rfl, hann, hscan]
  have hne : ¬ ("DELETE" = "CREATE") := by decide
  simp only [if_true, hne, if_false, hguard]

theorem wrapInt64_add_wrap (a b : Int) : wrapInt64 (wrapInt64 a + b) = wrapInt64 (a + b) := by
  unfold wrapInt64
  omega

theorem wrapInt64_inRange (a : Int) : InInt64 (wrapInt64 a) := by
  unfold InInt64 minInt64 maxInt64 wrapInt64
  omega

theorem sumCapacity_wrap (name : String) (vols : List PersistentVolume) (a : Int) :
    sumCapacity name vols (wrapInt64 a) = wrapInt64 (a + capacityOf name vols) := by
  induction vols generalizing a with
  | nil => simp [sumCapacity, capacityOf]
  | cons pv rest ih =>
    by_cases h : name = pv.storageClassName
    · rw [sumCapacity, if_pos h, wrapInt64_add_wrap, ih]
      have : capacityOf name (pv :: rest) = pv.capacity + capacityOf name rest := by
        simp [capacityOf, List.filter_cons, h]
      rw [this, Int.add_assoc]
    · rw [sumCapacity, if_neg h, ih]
      have : capacityOf name (pv :: rest) = capacityOf name rest := by
        simp [capacityOf, List.filter_cons, h]
      rw [this]

theorem sumCapacity_zero (name : String) (vols : List PersistentVolume) :
    sumCapacity name vols 0 = wrapInt64 (capacityOf name vols) := by
  have h := sumCapacity_wrap name vols 0
  have h0 : wrapInt64 0 = 0 := by decide
  rw [h0] at h
  simpa using h

theorem syncLoop_quiet {σ : Type} (client : Client σ) (vols : List PersistentVolume)
    (sc : StorageClass) (rest : List StorageClass) (vars : QuotaVars) (run : Run σ)
    (hscan : scanAnnotations sc.annotations ⟨0, 0, 0⟩ = some vars)
    (h : sumCapacity sc.name vols 0 = vars.usageStorage ∨
      mapIndex sc.annotations "storageVersion" ≠ Itoa vars.storageVersion) :
    synchronousStorageLoop client vols (sc :: rest) run =
      synchronousStorageLoop client vols rest run := by
  rw [synchronousStorageLoop, hscan]
  rcases h with h | h
  · simp only [h, ne_eq, not_true_eq_false, if_false]
  · by_cases hd : sumCapacity sc.name vols 0 = vars.usageStorage
    · simp only [hd, ne_eq, not_true_eq_false, if_false]
    · simp only [ne_eq, hd, not_false_eq_true, if_true, h, if_false]

theorem syncLoop_write {σ : Type} (client : Client σ) (vols : List PersistentVolume)
    (sc : StorageClass) (rest : List StorageClass) (m : Annotations) (vars : QuotaVars)
    (run : Run σ)
    (hann : sc.annotations = some m)
    (hscan : scanAnnotations sc.annotations ⟨0, 0, 0⟩ = some vars)
    (hdrift : sumCapacity sc.name vols 0 ≠ vars.usageStorage)
    (hguard : mapIndex sc.annotations "storageVersion" = Itoa vars.storageVersion) :
    synchronousStorageLoop client vols (sc :: rest) run =
      synchronousStorageLoop client vols rest
        (submitUpdate client
          { sc with annotations := some (mapAssign m "usage"
              (encodeSize (sumCapacity sc.name vols 0))) } run) := by
  rw [synchronousStorageLoop, hscan]
  simp only [ne_eq, hdrift, not_false_eq_true, if_true, hguard]
  rw [hann]
  rfl

theorem annotations_of_guard (annotations : Option Annotations) (V : Int)
    (hguard : mapIndex annotations "storageVersion" = Itoa V) :
    ∃ m, annotations = some m := by
  cases annotations with
  | none => exact absurd hguard.symm (Itoa_ne_empty V)
  | some m => exact ⟨m, rfl⟩

theorem mapLookup_mapAssign_isSome (m : Annotations) (key value key2 : String)
    (h : (mapLookup m key2).isSome = true) :
    (mapLookup (mapAssign m key value) key2).isSome = true := by
  by_cases hk : key = key2
  · subst hk
    rw [mapLookup_mapAssign_same]; rfl
  · rw [mapLookup_mapAssign_other m key value key2 hk]; exact h

theorem keeps_usage (sc : StorageClass) (m : Annotations) (value : String)
    (hann : sc.annotations = some m) :
    KeepsOtherAnnotations sc
      ({ sc with annotations := some (mapAssign m "usage" value) } : StorageClass) :=
  ⟨m, mapAssign m "usage" value, hann, rfl,
    fun key h1 _ => mapLookup_mapAssign_other m "usage" value key (Ne.symm h1),
    fun key h => mapLookup_mapAssign_isSome m "usage" value key h⟩

theorem keeps_usage_version (sc : StorageClass) (m : Annotations) (value version : String)
    (hann : sc.annotations = some m) :
    KeepsOtherAnnotations sc
      ({ sc with
          annotations := some (mapAssign (mapAssign m "usage" value) "storageVersion" version) } :
        StorageClass) :=
  ⟨m, mapAssign (mapAssign m "usage" value) "storageVersion" version, hann, rfl,
    fun key h1 h2 => by
      rw [mapLookup_mapAssign_other _ "storageVersion" version key (Ne.symm h2),
        mapLookup_mapAssign_other m "usage" value key (Ne.symm h1)],
    fun key h => mapLookup_mapAssign_isSome _ "storageVersion" version key
      (mapLookup_mapAssign_isSome m "usage" value key h)⟩

theorem WritesKeep_refl (Listed : StorageClass → Prop) (ups : List StorageClass) :
    WritesKeep Listed ups ups :=
  ⟨[], by simp, fun _ h => by cases h⟩

theorem WritesKeep_trans (Listed : StorageClass → Prop) (a b c : List StorageClass)
    (h1 : WritesKeep Listed a b) (h2 : WritesKeep Listed b c) : WritesKeep Listed a c := by
  obtain ⟨w1, e1, g1⟩ := h1
  obtain ⟨w2, e2, g2⟩ := h2
  refine ⟨w1 ++ w2, by rw [e2, e1, List.append_assoc], ?_⟩
  intro obj hobj
  rcases List.mem_append.mp hobj with h | h
  · exact g1 obj h
  · exact g2 obj h

theorem WritesKeep_step {σ : Type} (Listed : StorageClass → Prop) (client : Client σ)
    (sc obj : StorageClass) (run : Run σ) (hl : Listed sc)
    (hk : KeepsOtherAnnotations sc obj) :
    WritesKeep Listed run.updates (submitUpdate client obj run).updates :=
  ⟨[obj], rfl, fun o ho => by
    rw [List.mem_singleton] at ho
    subst ho
    exact ⟨sc, hl, hk⟩⟩

/-- Every object the loop of `validate` submits keeps the other annotations of
a listed class, provided the recursive call does. -/
theorem validateLoop_writes {σ : Type} (client : Client σ) (Listed : StorageClass → Prop)
    (retry : Run σ → Outcome × Run σ)
    (hretry : ∀ run, WritesKeep Listed run.updates (retry run).2.updates)
    (action storageName : String) (size newSize : Int) (items : List StorageClass)
    (hitems : ∀ sc ∈ items, Listed sc) (vars : QuotaVars) (run : Run σ) :
    WritesKeep Listed run.updates
      (validateLoop client retry action storageName size newSize items vars run).2.updates := by
  induction items generalizing vars run with
  | nil => exact WritesKeep_refl _ _
  | cons sc rest ih =>
    have hsc : Listed sc := hitems sc (by simp)
    have ih2 := ih (fun x hx => hitems x (by simp [hx]))
    have h1 := hretry run
    rw [validateLoop]
    dsimp only
    rcases hr : retry run with ⟨o, run1⟩
    rw [hr] at h1
    cases o
    all_goals dsimp only at h1 ⊢
    all_goals repeat' split
    all_goals
      first
        | exact WritesKeep_refl _ _
        | exact ih2 _ _
        | exact h1
        | exact WritesKeep_trans _ _ _ _ h1 (ih2 _ _)
        | exact WritesKeep_step Listed client sc _ run hsc
            (keeps_usage_version sc _ _ _ (by assumption))
        | exact WritesKeep_step Listed client sc _ run hsc
            (keeps_usage sc _ _ (by assumption))

theorem validate_writes {σ : Type} (client : Client σ) (Listed : StorageClass → Prop)
    (hread : ∀ s items, (client.listStorageClasses s).1 = some items → ∀ sc ∈ items, Listed sc)
    (fuel : Nat) (req : AdmissionRequest) (run : Run σ) :
    WritesKeep Listed run.updates (validate client fuel req run).2.updates := by
  induction fuel generalizing run with
  | zero => exact WritesKeep_refl _ _
  | succ fuel ih =>
    rw [validate]
    dsimp only
    split
    · split
      · exact WritesKeep_refl _ _
      · split
        · exact WritesKeep_refl _ _
        · unfold validateClaim
          split
          · exact WritesKeep_refl _ _
          · split
            · exact WritesKeep_refl _ _
            · rename_i items state hl
              have hitems : ∀ sc ∈ items, Listed sc :=
                hread run.state items (by rw [hl])
              exact validateLoop_writes client Listed _ ih _ _ _ _ items hitems _
                ⟨state, run.updates⟩
    · exact WritesKeep_refl _ _

theorem synchronousStorageLoop_writes {σ : Type} (client : Client σ)
    (Listed : StorageClass → Prop) (vols : List PersistentVolume) (items : List StorageClass)
    (hitems : ∀ sc ∈ items, Listed sc) (run : Run σ) :
    WritesKeep Listed run.updates (synchronousStorageLoop client vols items run).2.updates := by
  induction items generalizing run with
  | nil => exact WritesKeep_refl _ _
  | cons sc rest ih =>
    have hsc : Listed sc := hitems sc (by simp)
    have ih2 := ih (fun x hx => hitems x (by simp [hx]))
    rw [synchronousStorageLoop]
    dsimp only
    repeat' split
    all_goals
      first
        | exact WritesKeep_refl _ _
        | exact ih2 _
        | exact WritesKeep_trans _ _ _ _
            (WritesKeep_step Listed client sc _ run hsc (keeps_usage sc _ _ (by assumption)))
            (ih2 _)

/-- One pass of the task over `items`, on the uncontended cluster, leaves
classes over which a further pass ends the same way without any update. -/
theorem pass_then_quiet (vols : List PersistentVolume) (items : List StorageClass) :
    ∀ (done ups : List StorageClass),
      (∀ c ∈ done, ∀ x ∈ items, c.name ≠ x.name) →
      (items.map (fun c => c.name)).Nodup →
      ∃ (items2 w : List StorageClass) (o : TaskOutcome),
        synchronousStorageLoop clusterClient vols items ⟨⟨done ++ items, vols⟩, ups⟩ =
          (o, ⟨⟨done ++ items2, vols⟩, ups ++ w⟩) ∧
        (∀ {τ : Type} (client2 : Client τ) (run2 : Run τ),
          synchronousStorageLoop client2 vols items2 run2 = (o, run2)) := by
  induction items with
  | nil =>
    intro done ups _ _
    exact ⟨[], [], .completed, by simp [synchronousStorageLoop], fun _ _ => rfl⟩
  | cons sc rest ih =>
    intro done ups hdis hnodup
    have hnd : sc.name ∉ rest.map (fun c => c.name) ∧ (rest.map (fun c => c.name)).Nodup := by
      simpa using hnodup
    have hpre : ∀ c ∈ done, c.name ≠ sc.name := fun c hc => hdis c hc sc (by simp)
    have hrest : ∀ x ∈ rest, sc.name ≠ x.name := by
      intro x hx e
      exact hnd.1 (List.mem_map.mpr ⟨x, hx, e.symm⟩)
    cases hscan : scanAnnotations sc.annotations ⟨0, 0, 0⟩ with
    | none =>
      refine ⟨sc :: rest, [], .panicked, ?_, ?_⟩
      · rw [synchronousStorageLoop, hscan]; simp
      · intro τ client2 run2
        rw [synchronousStorageLoop, hscan]
    | some vars =>
      by_cases hquiet : sumCapacity sc.name vols 0 = vars.usageStorage ∨
          mapIndex sc.annotations "storageVersion" ≠ Itoa vars.storageVersion
      · obtain ⟨items2, w, o, hrun, hsecond⟩ := ih (done ++ [sc]) ups
          (by
            intro c hc x hx
            rcases List.mem_append.mp hc with h | h
            · exact hdis c h x (by simp [hx])
            · rw [List.mem_singleton] at h
              rw [h]; exact hrest x hx)
          hnd.2
        refine ⟨sc :: items2, w, o, ?_, ?_⟩
        · rw [syncLoop_quiet clusterClient vols sc rest vars _ hscan hquiet]
          simpa using hrun
        · intro τ client2 run2
          rw [syncLoop_quiet client2 vols sc items2 vars run2 hscan hquiet]
          exact hsecond client2 run2
      · have hdrift : sumCapacity sc.name vols 0 ≠ vars.usageStorage :=
          fun e => hquiet (Or.inl e)
        have hguard : mapIndex sc.annotations "storageVersion" = Itoa vars.storageVersion :=
          Classical.not_not.mp (fun e => hquiet (Or.inr e))
        obtain ⟨m, hann⟩ := annotations_of_guard sc.annotations _ hguard
        rw [hann] at hscan
        obtain ⟨hq, hu, hv⟩ := scanAnnotations_some_inv m ⟨0, 0, 0⟩ vars hscan
        have hrep := replaceClass_at
          { sc with annotations := some (mapAssign m "usage"
              (encodeSize (sumCapacity sc.name vols 0))) } sc done rest hpre rfl rfl
        obtain ⟨items2, w, o, hrun, hsecond⟩ := ih
          (done ++ [{ sc with
            annotations := some (mapAssign m "usage" (encodeSize (sumCapacity sc.name vols 0)))
            resourceVersion := sc.resourceVersion + 1 }])
          (ups ++ [{ sc with annotations := some (mapAssign m "usage"
              (encodeSize (sumCapacity sc.name vols 0))) }])
          (by
            intro c hc x hx
            rcases List.mem_append.mp hc with h | h
            · exact hdis c h x (by simp [hx])
            · rw [List.mem_singleton] at h
              rw [h]; exact hrest x hx)
          hnd.2
        refine ⟨{ sc with
            annotations := some (mapAssign m "usage" (encodeSize (sumCapacity sc.name vols 0)))
            resourceVersion := sc.resourceVersion + 1 } :: items2,
          { sc with annotations := some (mapAssign m "usage"
              (encodeSize (sumCapacity sc.name vols 0))) } :: w, o, ?_, ?_⟩
        · rw [syncLoop_write clusterClient vols sc rest m vars _ hann (by rw [hann]; exact hscan)
            hdrift hguard]
          simp only [submitUpdate, clusterClient, hrep]
          simpa using hrun
        · intro τ client2 run2
          have hin : InInt64 (sumCapacity sc.name vols 0) := by
            rw [sumCapacity_zero]; exact wrapInt64_inRange _
          have hscan2 : scanAnnotations (some (mapAssign m "usage"
              (encodeSize (sumCapacity sc.name vols 0)))) ⟨0, 0, 0⟩ =
              some ⟨vars.storageVersion, vars.quotaStorage, sumCapacity sc.name vols 0⟩ := by
            have k1 := scanKey_mapAssign_other m "usage"
              (encodeSize (sumCapacity sc.name vols 0)) "quota" decodeSize 0 (by decide)
            have k3 := scanKey_mapAssign_other m "usage"
              (encodeSize (sumCapacity sc.name vols 0)) "storageVersion" Atoi 0 (by decide)
            have k2 : scanKey (mapAssign m "usage" (encodeSize (sumCapacity sc.name vols 0)))
                "usage" decodeSize 0 = some (sumCapacity sc.name vols 0) := by
              rw [scanKey, mapLookup_mapAssign_same]
              exact decodeSize_encodeSize _ hin
            rw [hq] at k1
            rw [hv] at k3
            simp only [scanAnnotations, k1, k2, k3]
          have hq2 := syncLoop_quiet client2 vols
            { sc with
              annotations := some (mapAssign m "usage" (encodeSize (sumCapacity sc.name vols 0)))
              resourceVersion := sc.resourceVersion + 1 } items2
            ⟨vars.storageVersion, vars.quotaStorage, sumCapacity sc.name vols 0⟩ run2 hscan2
            (Or.inl rfl)
          rw [hq2]
          exact hsecond client2 run2

/-! ## The claims on the codec, the reconciler and the guard -/

/-- Claim C11: for every record whose quota, usage and version are in the
`int64` range (the usage may even be negative) and every base annotation map,
the decoding loop of the source applied to the encoded annotations yields the
record again, whatever the variables held before. -/
theorem codec_round_trip (record vars : QuotaVars) (baseAnnotations : Annotations)
    (hq : InInt64 record.quotaStorage) (hu : InInt64 record.usageStorage)
    (hv : InInt64 record.storageVersion) :
    scanAnnotations (some (encodeRecord record baseAnnotations)) vars = some record := by
  have h1 : scanKey (encodeRecord record baseAnnotations) "quota" decodeSize vars.quotaStorage
      = some record.quotaStorage := by
    unfold encodeRecord
    rw [scanKey_mapAssign_other _ _ _ _ _ _ (by decide),
      scanKey_mapAssign_other _ _ _ _ _ _ (by decide), scanKey_mapAssign_same]
    exact decodeSize_encodeSize _ hq
  have h2 : scanKey (encodeRecord record baseAnnotations) "usage" decodeSize vars.usageStorage
      = some record.usageStorage := by
    unfold encodeRecord
    rw [scanKey_mapAssign_other _ _ _ _ _ _ (by decide), scanKey_mapAssign_same]
    exact decodeSize_encodeSize _ hu
  have h3 : scanKey (encodeRecord record baseAnnotations) "storageVersion" Atoi
      vars.storageVersion = some record.storageVersion := by
    unfold encodeRecord
    rw [scanKey_mapAssign_same]
    exact Atoi_Itoa _ hv
  simp only [scanAnnotations, h1, h2, h3]

/-- The record of quota 100 GiB, usage 60 GiB, version 4 over a base map that
has another key and a stale usage. -/
theorem codec_round_trip_witness :
    scanAnnotations (some (encodeRecord ⟨4, 107374182400, 64424509440⟩
      [("owner", "storage-team"), ("usage", "stale")])) ⟨0, 0, 0⟩ =
      some ⟨4, 107374182400, 64424509440⟩ :=
  codec_round_trip ⟨4, 107374182400, 64424509440⟩ ⟨0, 0, 0⟩
    [("owner", "storage-team"), ("usage", "stale")] (by decide) (by decide) (by decide)

/-- Claim C12, refuted as stated: the empty annotation map decodes to the
record of zeros, a map with the quota key alone decodes with usage and version
zero, and the values `NTBCaQ` (base64 without its padding, a decode error that
the source discards) and `N3h5` (the text `7xy`, whose last two bytes are not a
unit) decode to 5 and 7. -/
theorem decode_accepts_incomplete_and_malformed :
    scanAnnotations (some []) ⟨0, 0, 0⟩ = some ⟨0, 0, 0⟩ ∧
    scanAnnotations (some [("quota", quota100)]) ⟨0, 0, 0⟩ = some ⟨0, 107374182400, 0⟩ ∧
    (DecodeString "NTBCaQ").2 = true ∧
    scanAnnotations (some [("quota", "NTBCaQ"), ("usage", "N3h5"), ("storageVersion", "3")])
      ⟨0, 0, 0⟩ = some ⟨3, 5, 7⟩ := by
  decide

/-- Claim C12, amended: the decoding loop fails exactly when a key that is
present carries a value it cannot read: for `quota` and `usage`, the bytes that
base64-URL decoding wrote (its error discarded) are fewer than two or, without
the last two, are not a decimal `int64`; for `storageVersion`, the value is not
a decimal `int`.  An absent key is no failure.  The failure is a panic of
`validate` and of the synchronisation task at that class. -/
theorem decode_rejects_malformed (m : Annotations) (vars : QuotaVars) :
    (scanAnnotations (some m) vars = none ↔
      (∃ v, mapLookup m "quota" = some v ∧
        ((DecodeString v).1.data.length < 2 ∨
          ParseInt (String.mk ((DecodeString v).1.data.take ((DecodeString v).1.data.length - 2)))
            = none)) ∨
      (∃ v, mapLookup m "usage" = some v ∧
        ((DecodeString v).1.data.length < 2 ∨
          ParseInt (String.mk ((DecodeString v).1.data.take ((DecodeString v).1.data.length - 2)))
            = none)) ∨
      (∃ v, mapLookup m "storageVersion" = some v ∧ Atoi v = none)) ∧
    (∀ {σ : Type} (client : Client σ) (retry : Run σ → Outcome × Run σ)
        (action : String) (size newSize : Int) (sc : StorageClass) (items : List StorageClass)
        (run : Run σ),
      sc.annotations = some m → scanAnnotations (some m) vars = none →
        validateLoop client retry action sc.name size newSize (sc :: items) vars run =
          (.panicked, run)) ∧
    (∀ {σ : Type} (client : Client σ) (volumes : List PersistentVolume) (sc : StorageClass)
        (items : List StorageClass) (run : Run σ),
      sc.annotations = some m → scanAnnotations (some m) ⟨0, 0, 0⟩ = none →
        synchronousStorageLoop client volumes (sc :: items) run = (.panicked, run)) := by
  have hsize : ∀ v, decodeSize v = none ↔
      ((DecodeString v).1.data.length < 2 ∨
        ParseInt (String.mk ((DecodeString v).1.data.take ((DecodeString v).1.data.length - 2)))
          = none) := by
    intro v
    unfold decodeSize
    by_cases h : (DecodeString v).1.data.length < 2
    · simp only [h, if_true, true_or]
    · simp only [h, if_false, false_or]
  refine ⟨?_, ?_, ?_⟩
  · rw [scanAnnotations_eq_none_iff, scanKey_eq_none_iff, scanKey_eq_none_iff,
      scanKey_eq_none_iff]
    simp only [hsize]
  · intro σ client retry action size newSize sc items run hann hnone
    rw [validateLoop, if_pos rfl, hann, hnone]
  · intro σ client volumes sc items run hann hnone
    rw [synchronousStorageLoop, hann, hnone]

/-- Claim C13: every object that `validate` (on any request, with any
recursion bound) and the synchronisation task submit to `Update` is a class
that was listed, with a new annotation map in which every key other than
`usage` and `storageVersion` has the value it had in the map read and in which
every key of the map read is still present. -/
theorem writes_preserve_other_annotations {σ : Type} (client : Client σ)
    (Listed : StorageClass → Prop)
    (hread : ∀ s items, (client.listStorageClasses s).1 = some items → ∀ sc ∈ items, Listed sc)
    (fuel : Nat) (req : AdmissionRequest) (run : Run σ) :
    (∃ w : List StorageClass, (validate client fuel req run).2.updates = run.updates ++ w ∧
      ∀ obj ∈ w, ∃ sc, Listed sc ∧ KeepsOtherAnnotations sc obj) ∧
    (∃ w : List StorageClass, (synchronousStorage client run).2.updates = run.updates ++ w ∧
      ∀ obj ∈ w, ∃ sc, Listed sc ∧ KeepsOtherAnnotations sc obj) := by
  refine ⟨validate_writes client Listed hread fuel req run, ?_⟩
  unfold synchronousStorage
  split
  · exact WritesKeep_refl _ _
  · split
    · exact WritesKeep_refl _ _
    · rename_i vols state _ _ items state1 hl
      have hitems : ∀ sc ∈ items, Listed sc := hread state items (by rw [hl])
      exact synchronousStorageLoop_writes client Listed vols items hitems ⟨state1, run.updates⟩

/-- An allowed expansion and a run of the synchronisation task over a cluster
that always lists the same two classes. -/
theorem writes_preserve_other_annotations_witness :
    (∃ w : List StorageClass,
      (validate (readOnlyClient [otherClass, classAt usage50 "3"] []) 1
        (updateRequest "fast" 10737418240 21474836480) ⟨0, []⟩).2.updates = [] ++ w ∧
      ∀ obj ∈ w, ∃ sc, sc ∈ [otherClass, classAt usage50 "3"] ∧ KeepsOtherAnnotations sc obj) ∧
    (∃ w : List StorageClass,
      (synchronousStorage (readOnlyClient [otherClass, classAt usage50 "3"] [])
        ⟨0, []⟩).2.updates = [] ++ w ∧
      ∀ obj ∈ w, ∃ sc, sc ∈ [otherClass, classAt usage50 "3"] ∧ KeepsOtherAnnotations sc obj) :=
  writes_preserve_other_annotations (readOnlyClient [otherClass, classAt usage50 "3"] [])
    (fun sc => sc ∈ [otherClass, classAt usage50 "3"])
    (fun _ items h sc hsc => by
      have e : items = [otherClass, classAt usage50 "3"] := by
        simpa [readOnlyClient] using h.symm
      rw [e] at hsc
      exact hsc)
    1 (updateRequest "fast" 10737418240 21474836480) ⟨0, []⟩

/-- Claim C14, refuted as stated: the class has stored usage 60 GiB and no
storageVersion annotation, its volumes add up to 55 GiB, and the task submits
no update. -/
theorem reconciler_skips_without_version :
    storedUsage { classAt usage60 "3" with
        annotations := some [("quota", quota100), ("usage", usage60)] } = some 64424509440 ∧
    capacityOf "fast" [⟨"fast", 32212254720⟩, ⟨"fast", 26843545600⟩] = 59055800320 ∧
    synchronousStorage clusterClient
        ⟨⟨[{ classAt usage60 "3" with
              annotations := some [("quota", quota100), ("usage", usage60)] }],
          [⟨"fast", 32212254720⟩, ⟨"fast", 26843545600⟩]⟩, []⟩ =
      (.completed,
        ⟨⟨[{ classAt usage60 "3" with
              annotations := some [("quota", quota100), ("usage", usage60)] }],
          [⟨"fast", 32212254720⟩, ⟨"fast", 26843545600⟩]⟩, []⟩) := by
  decide

/-- Claim C14, amended: for a class whose annotations decode, the task adds up
(in `int64`) the capacities of exactly the volumes whose class name is the
name of the class; when that sum differs from the decoded usage and the
storageVersion annotation is the canonical text of its value, it submits an
update whose usage annotation is the encoding of the sum; when the sum equals
the usage, or the storageVersion annotation is absent or not canonical, it
submits nothing for the class. -/
theorem reconciler_corrects_drift {σ : Type} (client : Client σ)
    (vols : List PersistentVolume) (sc : StorageClass) (rest : List StorageClass)
    (Q U V : Int) (run : Run σ)
    (hscan : scanAnnotations sc.annotations ⟨0, 0, 0⟩ = some ⟨V, Q, U⟩) :
    sumCapacity sc.name vols 0 = wrapInt64 (capacityOf sc.name vols) ∧
    (wrapInt64 (capacityOf sc.name vols) ≠ U →
      mapIndex sc.annotations "storageVersion" = Itoa V →
      ∃ written : Annotations,
        synchronousStorageLoop client vols (sc :: rest) run =
          synchronousStorageLoop client vols rest
            (submitUpdate client { sc with annotations := some written } run) ∧
        mapLookup written "usage" = some (encodeSize (wrapInt64 (capacityOf sc.name vols)))) ∧
    (wrapInt64 (capacityOf sc.name vols) = U ∨
        mapIndex sc.annotations "storageVersion" ≠ Itoa V →
      synchronousStorageLoop client vols (sc :: rest) run =
        synchronousStorageLoop client vols rest run) := by
  refine ⟨sumCapacity_zero _ _, ?_, ?_⟩
  · intro hdrift hguard
    obtain ⟨m, hann⟩ := annotations_of_guard sc.annotations V hguard
    refine ⟨mapAssign m "usage" (encodeSize (wrapInt64 (capacityOf sc.name vols))), ?_, ?_⟩
    · rw [syncLoop_write client vols sc rest m ⟨V, Q, U⟩ run hann hscan
        (by rw [sumCapacity_zero]; exact hdrift) hguard, sumCapacity_zero]
    · rw [mapLookup_mapAssign_same]
  · intro h
    exact syncLoop_quiet client vols sc rest ⟨V, Q, U⟩ run hscan
      (by rw [sumCapacity_zero]; exact h)

/-- Scenario 4 of the specification: volumes of 30 GiB and 25 GiB of the class
(and 1 GiB of another class), stored usage 60 GiB. -/
theorem reconciler_corrects_drift_witness :
    sumCapacity (classAt usage60 "3").name [⟨"fast", 32212254720⟩, ⟨"fast", 26843545600⟩,
        ⟨"slow", 1073741824⟩] 0 =
      wrapInt64 (capacityOf (classAt usage60 "3").name
        [⟨"fast", 32212254720⟩, ⟨"fast", 26843545600⟩, ⟨"slow", 1073741824⟩]) ∧
    (wrapInt64 (capacityOf (classAt usage60 "3").name
        [⟨"fast", 32212254720⟩, ⟨"fast", 26843545600⟩, ⟨"slow", 1073741824⟩]) ≠ 64424509440 →
      mapIndex (classAt usage60 "3").annotations "storageVersion" = Itoa 3 →
      ∃ written : Annotations,
        synchronousStorageLoop clusterClient
            [⟨"fast", 32212254720⟩, ⟨"fast", 26843545600⟩, ⟨"slow", 1073741824⟩]
            (classAt usage60 "3" :: []) ⟨⟨[classAt usage60 "3"], []⟩, []⟩ =
          synchronousStorageLoop clusterClient
            [⟨"fast", 32212254720⟩, ⟨"fast", 26843545600⟩, ⟨"slow", 1073741824⟩] []
            (submitUpdate clusterClient { classAt usage60 "3" with annotations := some written }
              ⟨⟨[classAt usage60 "3"], []⟩, []⟩) ∧
        mapLookup written "usage" = some (encodeSize (wrapInt64 (capacityOf
          (classAt usage60 "3").name
          [⟨"fast", 32212254720⟩, ⟨"fast", 26843545600⟩, ⟨"slow", 1073741824⟩])))) ∧
    (wrapInt64 (capacityOf (classAt usage60 "3").name
        [⟨"fast", 32212254720⟩, ⟨"fast", 26843545600⟩, ⟨"slow", 1073741824⟩]) = 64424509440 ∨
        mapIndex (classAt usage60 "3").annotations "storageVersion" ≠ Itoa 3 →
      synchronousStorageLoop clusterClient
          [⟨"fast", 32212254720⟩, ⟨"fast", 26843545600⟩, ⟨"slow", 1073741824⟩]
          (classAt usage60 "3" :: []) ⟨⟨[classAt usage60 "3"], []⟩, []⟩ =
        synchronousStorageLoop clusterClient
          [⟨"fast", 32212254720⟩, ⟨"fast", 26843545600⟩, ⟨"slow", 1073741824⟩] []
          ⟨⟨[classAt usage60 "3"], []⟩, []⟩) :=
  reconciler_corrects_drift clusterClient
    [⟨"fast", 32212254720⟩, ⟨"fast", 26843545600⟩, ⟨"slow", 1073741824⟩]
    (classAt usage60 "3") [] 107374182400 64424509440 3 ⟨⟨[classAt usage60 "3"], []⟩, []⟩
    (by decide)

/-- Claim C15: on the uncontended cluster, whose classes have distinct names so
that every update succeeds, a second run of the synchronisation task on the
state the first run left ends as the first did, submits no update and leaves
the state as it was. -/
theorem reconcile_idempotent (classes : List StorageClass) (vols : List PersistentVolume)
    (hnodup : (classes.map (fun c => c.name)).Nodup) :
    synchronousStorage clusterClient
        ⟨(synchronousStorage clusterClient ⟨⟨classes, vols⟩, []⟩).2.state, []⟩ =
      ((synchronousStorage clusterClient ⟨⟨classes, vols⟩, []⟩).1,
        ⟨(synchronousStorage clusterClient ⟨⟨classes, vols⟩, []⟩).2.state, []⟩) := by
  obtain ⟨items2, w, o, hrun, hsecond⟩ :=
    pass_then_quiet vols classes [] [] (fun c hc => by cases hc) hnodup
  have hfirst : synchronousStorage clusterClient ⟨⟨classes, vols⟩, []⟩ =
      (o, ⟨⟨items2, vols⟩, w⟩) := by
    simp only [synchronousStorage, clusterClient]
    simpa [clusterClient] using hrun
  rw [hfirst]
  simp only [synchronousStorage, clusterClient]
  exact hsecond _ _

/-- Two runs over the class with stored usage 60 GiB and volumes of 55 GiB. -/
theorem reconcile_idempotent_witness :
    synchronousStorage clusterClient
        ⟨(synchronousStorage clusterClient
          ⟨⟨[otherClass, classAt usage60 "3"],
            [⟨"fast", 32212254720⟩, ⟨"fast", 26843545600⟩]⟩, []⟩).2.state, []⟩ =
      ((synchronousStorage clusterClient
          ⟨⟨[otherClass, classAt usage60 "3"],
            [⟨"fast", 32212254720⟩, ⟨"fast", 26843545600⟩]⟩, []⟩).1,
        ⟨(synchronousStorage clusterClient
          ⟨⟨[otherClass, classAt usage60 "3"],
            [⟨"fast", 32212254720⟩, ⟨"fast", 26843545600⟩]⟩, []⟩).2.state, []⟩) :=
  reconcile_idempotent [otherClass, classAt usage60 "3"]
    [⟨"fast", 32212254720⟩, ⟨"fast", 26843545600⟩] (by decide)

/-- Claim C16: for a CREATE within quota and for a DELETE against a listed
class with a canonical storageVersion annotation, a client whose update calls
all return an error still gets `Allowed = true`, after the one update it
submitted was answered with an error; any other client that lists the same
classes, whatever its update returns, gets the same response. -/
theorem failed_update_keeps_allow {σ τ : Type} (client : Client σ) (other : Client τ)
    (fuel : Nat) (req : AdmissionRequest) (pvc : PersistentVolumeClaim)
    (run : Run σ) (run2 : Run τ)
    (pre post : List StorageClass) (sc : StorageClass) (m : Annotations) (Q U V : Int)
    (hkind : req.kind = "PersistentVolumeClaim")
    (hop : (req.operation = "CREATE" ∧ req.object = .valid pvc ∧
        wrapInt64 (U + pvc.storage) ≤ Q) ∨
      (req.operation = "DELETE" ∧ req.oldObject = .valid pvc))
    (hname : pvc.storageClassName = some sc.name)
    (hlist : (client.listStorageClasses run.state).1 = some (pre ++ sc :: post))
    (hlist2 : (other.listStorageClasses run2.state).1 = some (pre ++ sc :: post))
    (hpre : ∀ c ∈ pre, c.name ≠ sc.name)
    (hann : sc.annotations = some m)
    (hq : scanKey m "quota" decodeSize 0 = some Q)
    (hu : scanKey m "usage" decodeSize 0 = some U)
    (hv : mapLookup m "storageVersion" = some (Itoa V)) (hV : InInt64 V)
    (hfail : ∀ obj s, (client.updateStorageClass obj s).1 = true) :
    (validate client (fuel + 1) req run).1 = .response ⟨true, none⟩ ∧
    (validate other (fuel + 1) req run2).1 = (validate client (fuel + 1) req run).1 ∧
    (∃ obj, (validate client (fuel + 1) req run).2.updates = run.updates ++ [obj] ∧
      (client.updateStorageClass obj (client.listStorageClasses run.state).2).1 = true) := by
  rcases hop with ⟨hop, hobj, hfit⟩ | ⟨hop, hobj⟩
  · rw [validate_create client fuel req pvc run hkind hop hobj,
      validateClaim_eq client _ "CREATE" sc.name pvc 0 run _ hname hlist,
      validateLoop_skip client _ "CREATE" sc.name pvc.storage 0 pre _ _ _ hpre,
      createLoop_write client _ pvc.storage 0 sc post m Q U V _ hann hq hu hv hV
        (by rw [Int.add_comm]; exact hfit),
      validate_create other fuel req pvc run2 hkind hop hobj,
      validateClaim_eq other _ "CREATE" sc.name pvc 0 run2 _ hname hlist2,
      validateLoop_skip other _ "CREATE" sc.name pvc.storage 0 pre _ _ _ hpre,
      createLoop_write other _ pvc.storage 0 sc post m Q U V _ hann hq hu hv hV
        (by rw [Int.add_comm]; exact hfit)]
    exact ⟨rfl, rfl, _, rfl, hfail _ _⟩
  · rw [validate_delete client fuel req pvc run hkind hop hobj,
      validateClaim_eq client _ "DELETE" sc.name pvc 0 run _ hname hlist,
      validateLoop_skip client _ "DELETE" sc.name pvc.storage 0 pre _ _ _ hpre,
      deleteLoop_write client _ pvc.storage 0 sc post m Q U V _ hann hq hu hv hV,
      validate_delete other fuel req pvc run2 hkind hop hobj,
      validateClaim_eq other _ "DELETE" sc.name pvc 0 run2 _ hname hlist2,
      validateLoop_skip other _ "DELETE" sc.name pvc.storage 0 pre _ _ _ hpre,
      deleteLoop_write other _ pvc.storage 0 sc post m Q U V _ hann hq hu hv hV]
    exact ⟨rfl, rfl, _, rfl, hfail _ _⟩

/-- The Create of scenario 2 on a cluster that rejects every update, next to
the cluster that accepts it. -/
theorem failed_update_keeps_allow_witness :
    (validate (readOnlyClient [otherClass, classAt usage50 "3"] []) 1
        (ClaimOp.request "fast" (.create 10737418240)) ⟨0, []⟩).1 = .response ⟨true, none⟩ ∧
    (validate clusterClient 1 (ClaimOp.request "fast" (.create 10737418240))
        ⟨⟨[otherClass, classAt usage50 "3"], []⟩, []⟩).1 =
      (validate (readOnlyClient [otherClass, classAt usage50 "3"] []) 1
        (ClaimOp.request "fast" (.create 10737418240)) ⟨0, []⟩).1 ∧
    (∃ obj, (validate (readOnlyClient [otherClass, classAt usage50 "3"] []) 1
        (ClaimOp.request "fast" (.create 10737418240)) ⟨0, []⟩).2.updates = [] ++ [obj] ∧
      ((readOnlyClient [otherClass, classAt usage50 "3"] []).updateStorageClass obj
        ((readOnlyClient [otherClass, classAt usage50 "3"] []).listStorageClasses 0).2).1
        = true) :=
  failed_update_keeps_allow (readOnlyClient [otherClass, classAt usage50 "3"] []) clusterClient
    0 (ClaimOp.request "fast" (.create 10737418240)) ⟨some "fast", 10737418240⟩
    ⟨0, []⟩ ⟨⟨[otherClass, classAt usage50 "3"], []⟩, []⟩
    [otherClass] [] (classAt usage50 "3") (annotationsAt usage50 "3")
    107374182400 53687091200 3
    rfl (Or.inl ⟨rfl, rfl, by decide⟩) rfl rfl rfl (by decide) rfl (by decide) (by decide)
    (by decide) (by decide) (fun _ _ => rfl)

/-- Claim C17: for a request whose kind is not `PersistentVolumeClaim`,
whatever the operation, `validate` returns a response with `Allowed` not set
and the message `"\nNot support for this Kind of resource  "` followed by the
kind; the run is returned untouched: no storage class is listed or updated. -/
theorem unsupported_kind_no_opinion {σ : Type} (client : Client σ) (fuel : Nat)
    (req : AdmissionRequest) (run : Run σ) (hkind : req.kind ≠ "PersistentVolumeClaim") :
    validate client (fuel + 1) req run =
      (.response ⟨false, some ⟨"\nNot support for this Kind of resource  " ++ req.kind⟩⟩, run) := by
  rw [validate, if_neg hkind]

/-- A request for a `Deployment`. -/
theorem unsupported_kind_no_opinion_witness :
    validate clusterClient 1 ⟨"Deployment", "CREATE", nilRaw, nilRaw⟩
        ⟨⟨[classAt usage50 "3"], []⟩, []⟩ =
      (.response ⟨false, some ⟨"\nNot support for this Kind of resource  " ++ "Deployment"⟩⟩,
        ⟨⟨[classAt usage50 "3"], []⟩, []⟩) :=
  unsupported_kind_no_opinion clusterClient 0 ⟨"Deployment", "CREATE", nilRaw, nilRaw⟩
    ⟨⟨[classAt usage50 "3"], []⟩, []⟩ (by decide)

/-- Claim C18, the code at the failing input: the encoding of the Create and
Delete paths and of the synchronisation task reads back; the allowed expansion
from 10 GiB to 20 GiB at usage 50 GiB writes the usage annotation
`64424509440Bi` without the base64 wrapping, the decoding of the program fails
on it, and the next Create on the class panics. -/
theorem update_path_usage_not_readable :
    (∀ n : Int, InInt64 n → decodeSize (encodeSize n) = some n) ∧
    validate clusterClient 1 (updateRequest "fast" 10737418240 21474836480)
        ⟨⟨[classAt usage50 "3"], []⟩, []⟩ =
      (.response ⟨true, none⟩,
        ⟨⟨[{ classAt "64424509440Bi" "3" with resourceVersion := 8 }], []⟩,
         [classAt "64424509440Bi" "3"]⟩) ∧
    wrapInt64 (wrapInt64 (21474836480 - 10737418240) + 53687091200) = 64424509440 ∧
    decodeSize "64424509440Bi" = none ∧
    (validate clusterClient 1 (ClaimOp.request "fast" (.create 1073741824))
        ⟨⟨[{ classAt "64424509440Bi" "3" with resourceVersion := 8 }], []⟩, []⟩).1 =
      .panicked := by
  refine ⟨decodeSize_encodeSize, ?_, ?_, ?_, ?_⟩ <;> decide

/-- Claim C19: the guard compares the storageVersion annotation with the `Itoa`
of the value parsed from it.  A canonical annotation passes it; after a
successful decoding it fails only when the key is absent (or the map nil) or
the value is the canonical text of no integer; with a canonical annotation the
Create and Delete paths do not consult the recursive call and the
synchronisation task does not skip a drifted class; `"03"` and `"+3"` parse to
3 and fail the guard. -/
theorem version_guard_reads_own_snapshot :
    (∀ (m : Annotations) (V current : Int), InInt64 V →
      mapLookup m "storageVersion" = some (Itoa V) →
      scanKey m "storageVersion" Atoi current = some V ∧
        mapIndex (some m) "storageVersion" = Itoa V) ∧
    (∀ (annotations : Option Annotations) (vars0 vars : QuotaVars),
      scanAnnotations annotations vars0 = some vars →
      mapIndex annotations "storageVersion" ≠ Itoa vars.storageVersion →
      annotations = none ∨ ∃ m, annotations = some m ∧
        (mapLookup m "storageVersion" = none ∨
          ∃ s, mapLookup m "storageVersion" = some s ∧ ∀ n, InInt64 n → s ≠ Itoa n)) ∧
    (∀ {σ : Type} (client : Client σ) (retry1 retry2 : Run σ → Outcome × Run σ)
        (action : String) (size newSize : Int) (sc : StorageClass) (post : List StorageClass)
        (m : Annotations) (Q U V : Int) (run : Run σ),
      action = "CREATE" ∨ action = "DELETE" →
      sc.annotations = some m →
      scanKey m "quota" decodeSize 0 = some Q → scanKey m "usage" decodeSize 0 = some U →
      mapLookup m "storageVersion" = some (Itoa V) → InInt64 V →
      validateLoop client retry1 action sc.name size newSize (sc :: post) ⟨0, 0, 0⟩ run =
        validateLoop client retry2 action sc.name size newSize (sc :: post) ⟨0, 0, 0⟩ run) ∧
    (∀ {σ : Type} (client : Client σ) (vols : List PersistentVolume) (sc : StorageClass)
        (rest : List StorageClass) (m : Annotations) (Q U V : Int) (run : Run σ),
      sc.annotations = some m →
      scanKey m "quota" decodeSize 0 = some Q → scanKey m "usage" decodeSize 0 = some U →
      mapLookup m "storageVersion" = some (Itoa V) → InInt64 V →
      sumCapacity sc.name vols 0 ≠ U →
      synchronousStorageLoop client vols (sc :: rest) run =
        synchronousStorageLoop client vols rest
          (submitUpdate client
            { sc with annotations := some (mapAssign m "usage"
                (encodeSize (sumCapacity sc.name vols 0))) } run)) ∧
    (Atoi "03" = some 3 ∧ Itoa 3 ≠ "03" ∧ Atoi "+3" = some 3 ∧ Itoa 3 ≠ "+3") := by
  refine ⟨?_, ?_, ?_, ?_, by decide⟩
  · intro m V current hV hv
    refine ⟨?_, ?_⟩
    · rw [scanKey, hv]; exact Atoi_Itoa V hV
    · simp [mapIndex, hv]
  · intro annotations vars0 vars hscan hguard
    cases annotations with
    | none => exact Or.inl rfl
    | some m =>
      refine Or.inr ⟨m, rfl, ?_⟩
      cases hl : mapLookup m "storageVersion" with
      | none => exact Or.inl rfl
      | some s =>
        refine Or.inr ⟨s, rfl, ?_⟩
        intro n hn hs
        have hv : scanKey m "storageVersion" Atoi vars0.storageVersion
            = some vars.storageVersion := by
          unfold scanAnnotations at hscan
          cases h1 : scanKey m "quota" decodeSize vars0.quotaStorage <;>
            cases h2 : scanKey m "usage" decodeSize vars0.usageStorage <;>
            cases h3 : scanKey m "storageVersion" Atoi vars0.storageVersion <;>
            simp [h1, h2, h3] at hscan
          rw [← hscan]
        rw [scanKey, hl, hs] at hv
        simp only [Atoi_Itoa n hn] at hv
        have hn2 : n = vars.storageVersion := by simpa using hv
        apply hguard
        simp [mapIndex, hl, hs, hn2]
  · intro σ client retry1 retry2 action size newSize sc post m Q U V run hact hann hq hu hv hV
    rcases hact with h | h
    · subst h
      by_cases hfit : wrapInt64 (size + U) ≤ Q
      · rw [createLoop_write client retry1 size newSize sc post m Q U V run hann hq hu hv hV hfit,
          createLoop_write client retry2 size newSize sc post m Q U V run hann hq hu hv hV hfit]
      · have hscan : scanAnnotations sc.annotations ⟨0, 0, 0⟩ = some ⟨V, Q, U⟩ := by
          rw [hann]; exact scanAnnotations_some m Q U V hq hu hv hV
        rw [createLoop_deny client retry1 size newSize sc post Q U V run hscan
            (Int.not_le.mp hfit),
          createLoop_deny client retry2 size newSize sc post Q U V run hscan
            (Int.not_le.mp hfit)]
    · subst h
      rw [deleteLoop_write client retry1 size newSize sc post m Q U V run hann hq hu hv hV,
        deleteLoop_write client retry2 size newSize sc post m Q U V run hann hq hu hv hV]
  · intro σ client vols sc rest m Q U V run hann hq hu hv hV hdrift
    have hscan : scanAnnotations sc.annotations ⟨0, 0, 0⟩ = some ⟨V, Q, U⟩ := by
      rw [hann]; exact scanAnnotations_some m Q U V hq hu hv hV
    exact syncLoop_write client vols sc rest m ⟨V, Q, U⟩ run hann hscan hdrift
      (by rw [hann]; simp [mapIndex, hv])

/-- Claim C20: when every read lists the same classes and the class of the
claim has no storageVersion annotation, or a non-canonical one, a CREATE within
quota and a DELETE end, for every recursion bound `n`, without a response and
without any update. -/
theorem no_version_annotation_diverges {σ : Type} (client : Client σ)
    (req : AdmissionRequest) (pvc : PersistentVolumeClaim)
    (pre post : List StorageClass) (sc : StorageClass) (m : Annotations) (Q U V : Int)
    (hkind : req.kind = "PersistentVolumeClaim")
    (hop : (req.operation = "CREATE" ∧ req.object = .valid pvc ∧
        wrapInt64 (U + pvc.storage) ≤ Q) ∨
      (req.operation = "DELETE" ∧ req.oldObject = .valid pvc))
    (hname : pvc.storageClassName = some sc.name)
    (hconst : ∀ s, (client.listStorageClasses s).1 = some (pre ++ sc :: post))
    (hpre : ∀ c ∈ pre, c.name ≠ sc.name)
    (hann : sc.annotations = some m)
    (hq : scanKey m "quota" decodeSize 0 = some Q)
    (hu : scanKey m "usage" decodeSize 0 = some U)
    (hv : scanKey m "storageVersion" Atoi 0 = some V)
    (hbad : mapLookup m "storageVersion" = none ∨
      ∃ s, mapLookup m "storageVersion" = some s ∧ ∀ n, InInt64 n → s ≠ Itoa n)
    (n : Nat) (run : Run σ) :
    (validate client n req run).1 = .diverged ∧
      (validate client n req run).2.updates = run.updates := by
  have hguard := guard_fails_of_noncanonical m V 0 hv hbad
  have hscan : scanAnnotations (some m) ⟨0, 0, 0⟩ = some ⟨V, Q, U⟩ := by
    simp only [scanAnnotations, hq, hu, hv]
  induction n generalizing run with
  | zero => exact ⟨rfl, rfl⟩
  | succ n ih =>
    obtain ⟨ih1, ih2⟩ := ih ⟨(client.listStorageClasses run.state).2, run.updates⟩
    rcases hrec : validate client n req ⟨(client.listStorageClasses run.state).2, run.updates⟩
      with ⟨o, run1⟩
    rw [hrec] at ih1 ih2
    simp only at ih1 ih2
    subst ih1
    rcases hop with ⟨hop, hobj, hfit⟩ | ⟨hop, hobj⟩
    · rw [validate_create client n req pvc run hkind hop hobj,
        validateClaim_eq client _ "CREATE" sc.name pvc 0 run _ hname (hconst _),
        validateLoop_skip client _ "CREATE" sc.name pvc.storage 0 pre _ _ _ hpre,
        retryLoop_create client _ pvc.storage 0 sc post m Q U V _ hann hscan
          (by rw [Int.add_comm]; exact hfit) hguard, hrec]
      exact ⟨rfl, ih2⟩
    · rw [validate_delete client n req pvc run hkind hop hobj,
        validateClaim_eq client _ "DELETE" sc.name pvc 0 run _ hname (hconst _),
        validateLoop_skip client _ "DELETE" sc.name pvc.storage 0 pre _ _ _ hpre,
        retryLoop_delete client _ pvc.storage 0 sc post m Q U V _ hann hscan hguard, hrec]
      exact ⟨rfl, ih2⟩

/-- A Delete against the class whose storageVersion annotation is `"03"`, with
recursion bound 9. -/
theorem no_version_annotation_diverges_witness :
    (validate (readOnlyClient [otherClass, classAt usage50 "03"] []) 9
        (ClaimOp.request "fast" (.delete 5368709120)) ⟨0, []⟩).1 = .diverged ∧
      (validate (readOnlyClient [otherClass, classAt usage50 "03"] []) 9
        (ClaimOp.request "fast" (.delete 5368709120)) ⟨0, []⟩).2.updates = [] :=
  no_version_annotation_diverges (readOnlyClient [otherClass, classAt usage50 "03"] [])
    (ClaimOp.request "fast" (.delete 5368709120)) ⟨some "fast", 5368709120⟩
    [otherClass] [] (classAt usage50 "03") (annotationsAt usage50 "03")
    107374182400 53687091200 3
    rfl (Or.inr ⟨rfl, rfl⟩) rfl (fun _ => rfl) (by decide) rfl (by decide) (by decide)
    (by decide)
    (Or.inr ⟨"03", by decide, fun n hn h => by
      have h2 := Atoi_Itoa n hn
      rw [← h] at h2
      have h3 : Atoi "03" = some 3 := by decide
      rw [h3] at h2
      have h4 : n = 3 := by simpa using h2.symm
      rw [h4] at h
      revert h
      decide⟩)
    9 ⟨0, []⟩

end Webhook
